import Mathlib

/-!
Verification of the multi-channel bot session manager of this repository
against its natural-language specification.

The definitions below are a shallow embedding of the TypeScript source:
  - src/server/whatsapp.ts        (WhatsApp session registry and message handler)
  - src/unnamed/part_004          (Instagram session registry, polling loop,
                                   stage extractor, pipeline contact tracker)
  - src/shared/schema.ts          (row shapes of the persisted tables)

External clients (whatsapp-web.js Client, IgApiClient), timers and the LLM
gateway are modelled by explicit handles, flags and outcome parameters; the
database is modelled as in-memory lists of rows.  JavaScript string
truthiness (a || b treats the empty string and null as falsy) is modelled
explicitly by the jsOr* helpers.
-/

/-! ## JavaScript string primitives -/

/-- Whitespace class of JavaScript regular expressions and of String.prototype.trim:
space, tab, line feed, carriage return, vertical tab, form feed, NBSP and the
Unicode space separators, plus the line terminators U+2028 and U+2029 and the
BOM U+FEFF. -/
def jsWsChar (c : Char) : Bool :=
  c = ' ' || c = '\t' || c = '\n' || c = '\r' ||
  c.toNat = 11 || c.toNat = 12 || c.toNat = 0xa0 || c.toNat = 0x1680 ||
  (0x2000 ≤ c.toNat && c.toNat ≤ 0x200a) ||
  c.toNat = 0x2028 || c.toNat = 0x2029 || c.toNat = 0x202f || c.toNat = 0x205f ||
  c.toNat = 0x3000 || c.toNat = 0xfeff

/-- Characters matched by the dot of a JavaScript regex without the s flag:
everything except the four line terminators. -/
def jsDotChar (c : Char) : Bool :=
  !(c = '\n' || c = '\r' || c.toNat = 0x2028 || c.toNat = 0x2029)

/-- Simple case folding used by a case-insensitive JavaScript regex on the
characters that occur in the two stage labels: ASCII letters and the basic
Cyrillic capitals. -/
def lowerChar (c : Char) : Char :=
  if 65 ≤ c.toNat && c.toNat ≤ 90 then Char.ofNat (c.toNat + 32)
  else if 0x410 ≤ c.toNat && c.toNat ≤ 0x42f then Char.ofNat (c.toNat + 32)
  else if c.toNat = 0x401 then Char.ofNat 0x451
  else c

/-- String.prototype.trim on a character list. -/
def jsTrimList (l : List Char) : List Char :=
  ((l.dropWhile jsWsChar).reverse.dropWhile jsWsChar).reverse

/-- String.prototype.trim. -/
def jsTrim (s : String) : String := String.mk (jsTrimList s.data)

/-- JavaScript a || b where a is a string: the empty string is falsy. -/
def jsOrSS (a b : String) : String := if a = "" then b else a

/-- JavaScript a || b where a is a nullable string and b a string. -/
def jsOrOS (a : Option String) (b : String) : String :=
  match a with
  | some s => if s = "" then b else s
  | none => b

/-- JavaScript a || b where a is a string and b a nullable string. -/
def jsOrSO (a : String) (b : Option String) : Option String :=
  if a = "" then b else some a

/-- JavaScript a || b where both sides are nullable strings. -/
def jsOrOO (a b : Option String) : Option String :=
  match a with
  | some s => if s = "" then b else some s
  | none => b

/-- JavaScript a || null where a is a nullable string (used for
contact.pushname || null): an empty pushname collapses to null. -/
def jsOrON (a : Option String) : Option String :=
  match a with
  | some s => if s = "" then none else some s
  | none => none

/-! ## Stage extractor

The source matches the reply text against the regular expression
(in src/unnamed/part_004 line 1883, and inline at src/server/whatsapp.ts
line 261 and src/unnamed/part_004 line 2339):

    /\[(?:Стадия|Stage):\s*(.+?)\]/i

and returns group 1 trimmed, or null when there is no match.  The matcher
below embeds exactly this pattern with JavaScript semantics: leftmost match,
greedy backtracking whitespace, lazy dot-plus group, dot excluding line
terminators, simple case folding. -/

/-- Lazy group scanner: having committed the accumulated characters to the
group, stop at the first closing bracket, extend through dot-matchable
characters, fail otherwise. -/
def lazyGroupGo (acc : List Char) : List Char → Option (List Char)
  | [] => none
  | c :: t =>
    if c = ']' then some acc.reverse
    else if jsDotChar c then lazyGroupGo (c :: acc) t
    else none

/-- The part (.+?)\] of the pattern: at least one dot-matchable character,
lazily extended to the first closing bracket. -/
def lazyGroup : List Char → Option (List Char)
  | [] => none
  | c :: t => if jsDotChar c then lazyGroupGo [c] t else none

/-- Greedy \s* with backtracking: try consuming n whitespace characters first,
then fewer, until the rest of the pattern matches. -/
def wsBacktrack (l : List Char) : Nat → Option (List Char)
  | 0 => lazyGroup l
  | n + 1 =>
    match lazyGroup (l.drop (n + 1)) with
    | some g => some g
    | none => wsBacktrack l n

/-- The part \s*(.+?)\] of the pattern. -/
def matchAfterColon (l : List Char) : Option (List Char) :=
  wsBacktrack l (l.takeWhile jsWsChar).length

/-- Case-insensitive literal match: the keyword is given lowercased. -/
def matchKeywordCI : List Char → List Char → Option (List Char)
  | [], l => some l
  | _ :: _, [] => none
  | p :: ps, c :: cs => if lowerChar c = p then matchKeywordCI ps cs else none

def labelStadia : List Char := "стадия".data

def labelStage : List Char := "stage".data

/-- The pattern after the opening bracket: (?:Стадия|Stage):\s*(.+?)\] . -/
def matchAfterBracket (l : List Char) : Option (List Char) :=
  let rest :=
    match matchKeywordCI labelStadia l with
    | some r => some r
    | none => matchKeywordCI labelStage l
  match rest with
  | some (c :: r2) => if c = ':' then matchAfterColon r2 else none
  | _ => none

/-- Leftmost scan: a match can only start at an opening bracket. -/
def scanForStage : List Char → Option (List Char)
  | [] => none
  | c :: t =>
    if c = '[' then
      match matchAfterBracket t with
      | some g => some g
      | none => scanForStage t
    else scanForStage t

/-- extractStageFromResponse of src/unnamed/part_004 lines 1882-1885:
match the stage regex and return group 1 trimmed, else null. -/
def extractStageFromResponse (s : String) : Option String :=
  match scanForStage s.data with
  | some g => some (String.mk (jsTrimList g))
  | none => none


/-! ## Data model: persisted rows and the in-memory database

Row shapes follow src/shared/schema.ts (assistants, pipeline_stages,
pipeline_contacts, chat_logs); only the columns the session manager reads or
writes are carried.  Timestamps are modelled as naturals supplied by a now
parameter. -/

structure Assistant where
  id : Nat
  name : String
deriving DecidableEq

structure Stage where
  id : Nat
  assistantId : Nat
  name : String
  sortOrder : Nat
deriving DecidableEq

structure ContactRow where
  id : Nat
  userId : String
  assistantId : Nat
  stageId : Nat
  clientName : Option String
  clientContact : Option String
  channel : String
  lastMessage : Option String
  stageName : String
  createdAt : Nat
  updatedAt : Nat
deriving DecidableEq

structure ChatLogRow where
  assistantId : Nat
  userId : String
  channel : String
  senderName : Option String
  senderContact : String
  userMessage : String
  aiResponse : String
deriving DecidableEq

structure Db where
  assistants : List Assistant
  stages : List Stage
  contacts : List ContactRow
  chatLogs : List ChatLogRow
  nextContactId : Nat
deriving DecidableEq

/-- db.select().from(assistants).where(eq(assistants.id, i)): first matching row. -/
def findAssistant (db : Db) (i : Nat) : Option Assistant :=
  db.assistants.find? (fun a => a.id == i)

/-- db.select().from(pipelineStages).where(and(eq(assistantId, aid), eq(name, n))). -/
def findStage (db : Db) (aid : Nat) (n : String) : Option Stage :=
  db.stages.find? (fun st => st.assistantId == aid && st.name == n)

/-- db.select().from(pipelineContacts)
      .where(and(eq(assistantId, aid), eq(clientContact, cid))). -/
def findContact (db : Db) (aid : Nat) (cid : String) : Option ContactRow :=
  db.contacts.find? (fun c => c.assistantId == aid && c.clientContact == some cid)

/-- db.update(pipelineContacts).set(...).where(eq(pipelineContacts.id, i)). -/
def updateContactById (l : List ContactRow) (i : Nat) (f : ContactRow → ContactRow) :
    List ContactRow :=
  l.map (fun c => if c.id == i then f c else c)

/-- db.insert(chatLogs).values(row). -/
def insertChatLog (db : Db) (row : ChatLogRow) : Db :=
  { db with chatLogs := db.chatLogs ++ [row] }

/-! ## Pipeline contact tracker

saveOrUpdatePipelineContact of src/unnamed/part_004 lines 1887-1964. -/

structure PipelineParams where
  assistantId : Nat
  userId : String
  channel : String
  clientName : Option String
  clientContact : Option String
  stageName : String
  lastMessage : String
deriving DecidableEq

/-- The contact identifier computed at line 1919:
clientContact || clientName || channel_anonymous_assistantId. -/
def contactIdentifierOf (p : PipelineParams) : String :=
  jsOrOS p.clientContact
    (jsOrOS p.clientName ((p.channel ++ "_anonymous_") ++ toString p.assistantId))

/-- The placeholder client name used on insert (lines 1948-1954). -/
def placeholderClientName (channel : String) : String :=
  if channel = "web" then "Веб-пользователь"
  else if channel = "whatsapp" then "WhatsApp контакт"
  else "Пользователь"

/-- saveOrUpdatePipelineContact: resolve the stage by name for the assistant
(no-op when absent), compute the contact identifier, then update the first
row matching (assistantId, contactIdentifier) by id, or insert a fresh row. -/
def saveOrUpdatePipelineContact (db : Db) (p : PipelineParams) (now : Nat) : Db :=
  match findStage db p.assistantId p.stageName with
  | none => db
  | some stage =>
    let contactIdentifier := contactIdentifierOf p
    match findContact db p.assistantId contactIdentifier with
    | some existing =>
      { db with contacts := updateContactById db.contacts existing.id (fun c =>
          { c with stageId := stage.id, stageName := p.stageName,
                   lastMessage := some p.lastMessage,
                   clientName := jsOrOO p.clientName existing.clientName,
                   updatedAt := now }) }
    | none =>
      { db with
          contacts := db.contacts ++ [{
            id := db.nextContactId,
            userId := p.userId,
            assistantId := p.assistantId,
            stageId := stage.id,
            clientName := some (jsOrOS p.clientName (placeholderClientName p.channel)),
            clientContact := some contactIdentifier,
            channel := p.channel,
            lastMessage := some p.lastMessage,
            stageName := p.stageName,
            createdAt := now,
            updatedAt := now }],
          nextContactId := db.nextContactId + 1 }

/-! ## WhatsApp channel (src/server/whatsapp.ts)

The registry is the module-level Map sessions keyed by userId_assistantId.
Each new Client(...) is modelled by a fresh numeric handle recorded with the
key it was created for; calls to client.destroy() and rejections of
client.initialize() are recorded in lists.  A handle is live for a key when
it was created for that key, was not destroyed, and its initialization did
not fail.  The asynchronous outcome of one open() call (which event settles
the returned promise first) is supplied as an explicit behaviour parameter. -/

inductive WaStatus
  | initializing
  | qr
  | authenticated
  | ready
  | disconnected
deriving DecidableEq

def waStatusStr : WaStatus → String
  | .initializing => "initializing"
  | .qr => "qr"
  | .authenticated => "authenticated"
  | .ready => "ready"
  | .disconnected => "disconnected"

structure WaSession where
  handle : Nat
  status : WaStatus
  qrCode : Option String
  pairingCode : Option String
  userId : String
  assistantId : Nat
  phoneNumber : Option String
deriving DecidableEq

structure WaState where
  sessions : List (String × WaSession)
  nextHandle : Nat
  owners : List (Nat × String)
  destroyedHandles : List Nat
  failedInit : List Nat
deriving DecidableEq

def getSessionKey (userId : String) (assistantId : Nat) : String :=
  userId ++ "_" ++ toString assistantId

/-- Map.prototype.get. -/
def mapLookup (m : List (String × WaSession)) (k : String) : Option WaSession :=
  (m.find? (fun p => p.1 == k)).map (fun p => p.2)

/-- Map.prototype.set. -/
def mapSet (m : List (String × WaSession)) (k : String) (v : WaSession) :
    List (String × WaSession) :=
  (k, v) :: m.filter (fun p => p.1 != k)

/-- Map.prototype.delete. -/
def mapDelete (m : List (String × WaSession)) (k : String) :
    List (String × WaSession) :=
  m.filter (fun p => p.1 != k)

/-- Number of registry entries stored under a key. -/
def waKeyCount (st : WaState) (k : String) : Nat :=
  st.sessions.countP (fun p => p.1 == k)

/-- A handle-to-key record is live given the destroy and failed-init logs:
created for the key, never destroyed, initialization never failed. -/
def liveP (d f : List Nat) (k : String) (p : Nat × String) : Bool :=
  p.2 == k && !(d.contains p.1) && !(f.contains p.1)

def waIsLiveFor (st : WaState) (k : String) (p : Nat × String) : Bool :=
  liveP st.destroyedHandles st.failedInit k p

/-- Number of live client handles for a key. -/
def waLiveCount (st : WaState) (k : String) : Nat :=
  st.owners.countP (waIsLiveFor st k)

/-- Which event settles the promise returned by createWhatsAppSession. -/
inductive WaInit
  | emitsQr (qr : String)
  | authFails
  | initFails
  | timesOut
deriving DecidableEq

structure WaResult where
  success : Bool
  qrCode : Option String
  error : Option String
deriving DecidableEq

/-- The fresh-session part of createWhatsAppSession (lines 68-170): create a
client, insert the entry with status initializing, then settle according to
the behaviour.  The qr event stores the code and resolves success; the
auth_failure event resolves failure leaving the entry; a rejected
initialize() deletes the entry; the 60 second timeout resolves failure
leaving the entry untouched. -/
def waFresh (st : WaState) (key userId : String) (assistantId : Nat) (b : WaInit) :
    WaState × WaResult :=
  let h := st.nextHandle
  let s0 : WaSession :=
    { handle := h, status := .initializing, qrCode := none, pairingCode := none,
      userId := userId, assistantId := assistantId, phoneNumber := none }
  let st1 : WaState :=
    { st with nextHandle := h + 1, owners := (h, key) :: st.owners,
              sessions := mapSet st.sessions key s0 }
  match b with
  | .emitsQr q =>
    ({ st1 with sessions := mapSet st1.sessions key { s0 with status := .qr, qrCode := some q } },
     { success := true, qrCode := some q, error := none })
  | .authFails =>
    (st1, { success := false, qrCode := none, error := some "Authentication failed" })
  | .initFails =>
    ({ st1 with sessions := mapDelete st1.sessions key, failedInit := h :: st1.failedInit },
     { success := false, qrCode := none,
       error := some "Failed to initialize WhatsApp. Please try again." })
  | .timesOut =>
    (st1, { success := false, qrCode := none,
            error := some "Timeout waiting for QR code. Please try again." })

/-- createWhatsAppSession (lines 45-171): if an entry exists with status
ready, return success immediately; otherwise destroy any existing entry,
remove it, and create a fresh session. -/
def createWhatsAppSession (st : WaState) (userId : String) (assistantId : Nat)
    (b : WaInit) : WaState × WaResult :=
  let key := getSessionKey userId assistantId
  match mapLookup st.sessions key with
  | some s =>
    if s.status = .ready then
      (st, { success := true, qrCode := none, error := none })
    else
      let st1 : WaState :=
        { st with destroyedHandles := s.handle :: st.destroyedHandles,
                  sessions := mapDelete st.sessions key }
      waFresh st1 key userId assistantId b
  | none => waFresh st key userId assistantId b

structure WaStatusReport where
  status : String
  qrCode : Option String
  pairingCode : Option String
  phoneNumber : Option String
deriving DecidableEq

/-- getSessionStatus (lines 314-333). -/
def getSessionStatus (st : WaState) (userId : String) (assistantId : Nat) :
    WaStatusReport :=
  match mapLookup st.sessions (getSessionKey userId assistantId) with
  | none =>
    { status := "not_connected", qrCode := none, pairingCode := none, phoneNumber := none }
  | some s =>
    { status := waStatusStr s.status, qrCode := s.qrCode,
      pairingCode := s.pairingCode, phoneNumber := s.phoneNumber }

/-- disconnectSession (lines 335-353).  teardownFails models client.logout()
or client.destroy() throwing: the catch block deletes the entry and returns
false, without the destroy having completed. -/
def disconnectSession (st : WaState) (userId : String) (assistantId : Nat)
    (teardownFails : Bool) : WaState × Bool :=
  let key := getSessionKey userId assistantId
  match mapLookup st.sessions key with
  | none => (st, false)
  | some s =>
    if teardownFails then
      ({ st with sessions := mapDelete st.sessions key }, false)
    else
      ({ st with destroyedHandles := s.handle :: st.destroyedHandles,
                 sessions := mapDelete st.sessions key }, true)

/-! ### WhatsApp message handler (handleIncomingMessage, lines 173-312) -/

structure WaMessage where
  fromMe : Bool
  fromId : String
  body : String
  pushname : Option String
deriving DecidableEq

/-- Outcome of the single ai.models.generateContent call: ok carries
response.text with the empty string standing for a missing text, err models
the call throwing (for example a GatewayError on a non-2xx backend reply). -/
inductive GatewayResult
  | ok (text : String)
  | err
deriving DecidableEq

inductive WaEffect
  | gatewayCall
  | reply (target : String) (text : String)
  | chatLog (row : ChatLogRow)
  | pipelineInsert (rowId : Nat)
  | pipelineUpdate (rowId : Nat)
deriving DecidableEq

def waFallbackText : String := "Извините, не могу ответить сейчас."

/-- handleIncomingMessage: skip own messages; look up the assistant (no-op
when absent); call the gateway — a thrown gateway error is caught by the
outer catch, which only logs, so no reply is sent and no chat log is
written; on success reply (falling back to the apology text when
response.text is empty), append a chat log row, then run the stage regex on
the reply and update or insert a pipeline contact.  The session record is
never mutated. -/
def handleIncomingMessage (db : Db) (s : WaSession) (msg : WaMessage)
    (gw : GatewayResult) (now : Nat) : WaSession × Db × List WaEffect :=
  if msg.fromMe then (s, db, [])
  else
    match findAssistant db s.assistantId with
    | none => (s, db, [])
    | some _ =>
      match gw with
      | .err => (s, db, [.gatewayCall])
      | .ok t =>
        let replyText := jsOrSS t waFallbackText
        let chatRow : ChatLogRow :=
          { assistantId := s.assistantId, userId := s.userId, channel := "whatsapp",
            senderName := jsOrON msg.pushname, senderContact := msg.fromId,
            userMessage := msg.body, aiResponse := replyText }
        let db1 := insertChatLog db chatRow
        let baseEffects : List WaEffect :=
          [.gatewayCall, .reply msg.fromId replyText, .chatLog chatRow]
        match extractStageFromResponse replyText with
        | none => (s, db1, baseEffects)
        | some detectedStageName =>
          match findStage db1 s.assistantId detectedStageName with
          | none => (s, db1, baseEffects)
          | some matchedStage =>
            match findContact db1 s.assistantId msg.fromId with
            | some existing =>
              ({ s with status := s.status },
               { db1 with contacts := updateContactById db1.contacts existing.id (fun c =>
                   { c with stageId := matchedStage.id, stageName := detectedStageName,
                            lastMessage := some msg.body,
                            clientName := jsOrOO msg.pushname existing.clientName,
                            updatedAt := now }) },
               baseEffects ++ [.pipelineUpdate existing.id])
            | none =>
              (s,
               { db1 with
                   contacts := db1.contacts ++ [{
                     id := db1.nextContactId,
                     userId := s.userId,
                     assistantId := s.assistantId,
                     stageId := matchedStage.id,
                     clientName := some (jsOrOS msg.pushname "WhatsApp контакт"),
                     clientContact := some msg.fromId,
                     channel := "whatsapp",
                     lastMessage := some msg.body,
                     stageName := detectedStageName,
                     createdAt := now,
                     updatedAt := now }],
                   nextContactId := db1.nextContactId + 1 },
               baseEffects ++ [.pipelineInsert db1.nextContactId])

/-! ## Instagram channel (src/unnamed/part_004, Instagram section)

The registry is the module-level Map sessions keyed by ig_userId_assistantId.
Each new IgApiClient() is modelled by a fresh numeric client id recorded with
its key; the setInterval polling timer of a client is modelled by membership
in clientTimers (clearInterval removes it).  A client is live for a key when
it was created for that key and is still reachable: either it is the client
of the current registry entry, or its polling timer is still running. -/

inductive IgStatus
  | connecting
  | connected
  | disconnected
  | error
deriving DecidableEq

def igStatusStr : IgStatus → String
  | .connecting => "connecting"
  | .connected => "connected"
  | .disconnected => "disconnected"
  | .error => "error"

structure IgSession where
  ig : Nat
  status : IgStatus
  username : String
  userId : String
  assistantId : Nat
  myPk : Nat
  pollingActive : Bool
  lastCheckedTimestamp : Nat
  processedMessageIds : List String
  consecutiveErrors : Nat
  errorMsg : Option String
deriving DecidableEq

structure IgState where
  sessions : List (String × IgSession)
  nextClient : Nat
  owners : List (Nat × String)
  clientTimers : List Nat
deriving DecidableEq

def igSessionKey (userId : String) (assistantId : Nat) : String :=
  ("ig_" ++ userId ++ "_") ++ toString assistantId

def igLookup (m : List (String × IgSession)) (k : String) : Option IgSession :=
  (m.find? (fun p => p.1 == k)).map (fun p => p.2)

def igSet (m : List (String × IgSession)) (k : String) (v : IgSession) :
    List (String × IgSession) :=
  (k, v) :: m.filter (fun p => p.1 != k)

def igDelete (m : List (String × IgSession)) (k : String) :
    List (String × IgSession) :=
  m.filter (fun p => p.1 != k)

def igKeyCount (st : IgState) (k : String) : Nat :=
  st.sessions.countP (fun p => p.1 == k)

/-- The client referenced by the current entry for a key, if any. -/
def igEntryClient (st : IgState) (k : String) : Option Nat :=
  (igLookup st.sessions k).map (fun s => s.ig)

/-- A recorded client is live for a key when it was created for that key and
either the current entry references it or its polling interval still runs. -/
def igIsLiveFor (st : IgState) (k : String) (p : Nat × String) : Bool :=
  p.2 == k && (igEntryClient st k == some p.1 || st.clientTimers.contains p.1)

def igLiveCount (st : IgState) (k : String) : Nat :=
  st.owners.countP (igIsLiveFor st k)

/-- stopPolling (lines 2194-2199): clearInterval and null the field. -/
def igStopTimer (st : IgState) (c : Nat) : IgState :=
  { st with clientTimers := st.clientTimers.filter (fun x => x != c) }

/-- Outcome of ig.account.login: success with the account pk, or one of the
error classes distinguished at lines 2145-2153. -/
inductive IgLogin
  | ok (pk : Nat)
  | twoFactor
  | checkpoint
  | badPassword
  | invalidUser
  | otherErr (msg : String)
deriving DecidableEq

def igLoginErrorMessage : IgLogin → String
  | .twoFactor => "Two-factor authentication required. Please disable 2FA temporarily or use an app password."
  | .checkpoint => "Instagram security checkpoint triggered. Please verify your account in the Instagram app first, then try again."
  | .badPassword => "Incorrect password. Please try again."
  | .invalidUser => "Username not found. Please check your username."
  | _ => "Login failed. Please check your credentials."

structure IgResult where
  success : Bool
  username : Option String
  error : Option String
deriving DecidableEq

/-- connectInstagram (lines 2088-2157): if an entry exists with status
connected, return success immediately; otherwise stop its polling and remove
it; then create a fresh client and entry with status connecting and attempt
login.  On success the entry becomes connected with polling started; on a
login error the entry REMAINS in the map with status error and the
human-readable message, and a failure result is returned. -/
def connectInstagram (st : IgState) (userId : String) (assistantId : Nat)
    (username : String) (now : Nat) (b : IgLogin) : IgState × IgResult :=
  let key := igSessionKey userId assistantId
  match igLookup st.sessions key with
  | some s =>
    if s.status = .connected then
      (st, { success := true, username := some s.username, error := none })
    else
      igConnectFresh (igStopTimer { st with sessions := igDelete st.sessions key } s.ig)
        key userId assistantId username now b
  | none => igConnectFresh st key userId assistantId username now b
where
  igConnectFresh (st : IgState) (key userId : String) (assistantId : Nat)
      (username : String) (now : Nat) (b : IgLogin) : IgState × IgResult :=
    let c := st.nextClient
    let s0 : IgSession :=
      { ig := c, status := .connecting, username := username, userId := userId,
        assistantId := assistantId, myPk := 0, pollingActive := false,
        lastCheckedTimestamp := now, processedMessageIds := [],
        consecutiveErrors := 0, errorMsg := none }
    let st1 : IgState :=
      { st with nextClient := c + 1, owners := (c, key) :: st.owners,
                sessions := igSet st.sessions key s0 }
    match b with
    | .ok pk =>
      ({ st1 with
           sessions := igSet st1.sessions key
             { s0 with status := .connected, myPk := pk, pollingActive := true },
           clientTimers := c :: st1.clientTimers },
       { success := true, username := some username, error := none })
    | e =>
      ({ st1 with
           sessions := igSet st1.sessions key
             { s0 with status := .error, errorMsg := some (igLoginErrorMessage e) } },
       { success := false, username := none, error := some (igLoginErrorMessage e) })

structure IgStatusReport where
  status : String
  username : Option String
  error : Option String
deriving DecidableEq

/-- getInstagramStatus (lines 2390-2407). -/
def getInstagramStatus (st : IgState) (userId : String) (assistantId : Nat) :
    IgStatusReport :=
  match igLookup st.sessions (igSessionKey userId assistantId) with
  | none => { status := "not_connected", username := none, error := none }
  | some s => { status := igStatusStr s.status, username := some s.username,
                error := s.errorMsg }

/-- disconnectInstagram (lines 2409-2430): stop polling, attempt logout with
the error swallowed by an inner catch, remove the entry, return true; false
only when no entry existed. -/
def disconnectInstagram (st : IgState) (userId : String) (assistantId : Nat)
    (logoutFails : Bool) : IgState × Bool :=
  let key := igSessionKey userId assistantId
  match igLookup st.sessions key with
  | none => (st, false)
  | some s =>
    let st1 := igStopTimer st s.ig
    let _ := logoutFails
    ({ st1 with sessions := igDelete st1.sessions key }, true)

/-! ### Instagram polling tick (startPolling, lines 2159-2192)

One firing of the setInterval callback, seen from the session object the
closure captured.  The outcome parameter abstracts what the awaited
checkNewMessages call did: returned, threw an authentication-class error
(IgLoginRequiredError / IgCookieNotFoundError), or threw anything else.
The returned flag records whether a poll attempt (a checkNewMessages call)
was made. -/

inductive PollOutcome
  | ok
  | errAuth
  | errOther
deriving DecidableEq

def pollTick (s : IgSession) (o : PollOutcome) : IgSession × Bool :=
  if s.pollingActive = false then (s, false)
  else if s.status ≠ .connected then ({ s with pollingActive := false }, false)
  else
    match o with
    | .ok => ({ s with consecutiveErrors := 0 }, true)
    | .errAuth =>
      ({ s with consecutiveErrors := s.consecutiveErrors + 1,
                status := .disconnected,
                errorMsg := some "Session expired. Please reconnect.",
                pollingActive := false }, true)
    | .errOther =>
      let n := s.consecutiveErrors + 1
      if 10 ≤ n then
        ({ s with consecutiveErrors := n, status := .error,
                  errorMsg := some "Too many errors. Please reconnect.",
                  pollingActive := false }, true)
      else
        ({ s with consecutiveErrors := n }, true)

/-- Fold a sequence of tick outcomes over a session. -/
def pollTicks (s : IgSession) (os : List PollOutcome) : IgSession :=
  os.foldl (fun s o => (pollTick s o).1) s

/-! ### Instagram message ingestion (checkNewMessages, lines 2201-2264) -/

structure IgItem where
  item_id : String
  user_id : Nat
  timestamp : Nat
  text : Option String
deriving DecidableEq

structure IgThread where
  thread_id : String
  thread_title : Option String
  last_permanent_item : Option IgItem
deriving DecidableEq

/-- Effects emitted while processing one poll, each tagged with the
item_id of the inbound message that triggered it. -/
inductive IgEffect
  | reply (itemId : String) (threadId : String) (text : String)
  | chatLog (itemId : String) (row : ChatLogRow)
  | pipelineInsert (itemId : String) (rowId : Nat)
  | pipelineUpdate (itemId : String) (rowId : Nat)
deriving DecidableEq

def IgEffect.itemId : IgEffect → String
  | .reply i _ _ => i
  | .chatLog i _ => i
  | .pipelineInsert i _ => i
  | .pipelineUpdate i _ => i

/-- Set.prototype.add on the insertion-ordered dedup set. -/
def setAdd (l : List String) (x : String) : List String :=
  if l.contains x then l else l ++ [x]

/-- generateAIResponse (lines 2266-2329): look up the assistant (fixed
apology when absent), call the gateway inside try/catch — both a thrown
gateway error and an empty response text produce the fallback apology. -/
def generateAIResponse (db : Db) (assistantId : Nat) (gw : GatewayResult) : String :=
  match findAssistant db assistantId with
  | none => "Sorry, I cannot respond right now."
  | some _ =>
    match gw with
    | .err => waFallbackText
    | .ok t => jsOrSS t waFallbackText

/-- savePipelineContact (lines 2331-2388): run the stage regex on the reply,
resolve the stage, then update the first row matching
(assistantId, ig_senderId) by id or insert a fresh row. -/
def savePipelineContactIg (db : Db) (assistantId : Nat) (userId : String)
    (itemId senderName senderId userMessage aiReply : String) (now : Nat) :
    Db × List IgEffect :=
  match extractStageFromResponse aiReply with
  | none => (db, [])
  | some detectedStageName =>
    match findStage db assistantId detectedStageName with
    | none => (db, [])
    | some matchedStage =>
      let contactId := "ig_" ++ senderId
      match findContact db assistantId contactId with
      | some existing =>
        ({ db with contacts := updateContactById db.contacts existing.id (fun c =>
             { c with stageId := matchedStage.id, stageName := detectedStageName,
                      lastMessage := some userMessage,
                      clientName := jsOrSO senderName existing.clientName,
                      updatedAt := now }) },
         [.pipelineUpdate itemId existing.id])
      | none =>
        ({ db with
             contacts := db.contacts ++ [{
               id := db.nextContactId,
               userId := userId,
               assistantId := assistantId,
               stageId := matchedStage.id,
               clientName := some (jsOrSS senderName "Instagram User"),
               clientContact := some contactId,
               channel := "instagram",
               lastMessage := some userMessage,
               stageName := detectedStageName,
               createdAt := now,
               updatedAt := now }],
             nextContactId := db.nextContactId + 1 },
         [.pipelineInsert itemId db.nextContactId])

/-- The body of the for-loop over threads (lines 2207-2256): inspect only the
latest item of the thread and skip it when absent, already processed, sent by
the session account, older than the last check, or blank; otherwise record it
as processed, generate the reply, send it, append a chat log row and update
the pipeline contact. -/
def processThread (db : Db) (gw : GatewayResult) (now : Nat)
    (s : IgSession) (t : IgThread) : IgSession × Db × List IgEffect :=
  match t.last_permanent_item with
  | none => (s, db, [])
  | some item =>
    if s.processedMessageIds.contains item.item_id then (s, db, [])
    else if s.myPk ≠ 0 ∧ item.user_id = s.myPk then (s, db, [])
    else if item.timestamp < s.lastCheckedTimestamp then (s, db, [])
    else
      let messageText := jsOrOS item.text ""
      if jsTrim messageText = "" then (s, db, [])
      else
        let s1 := { s with processedMessageIds := setAdd s.processedMessageIds item.item_id }
        let senderName := jsOrOS t.thread_title "Instagram User"
        let senderId := toString item.user_id
        let aiReply := generateAIResponse db s.assistantId gw
        let chatRow : ChatLogRow :=
          { assistantId := s.assistantId, userId := s.userId, channel := "instagram",
            senderName := some senderName, senderContact := "@" ++ senderId,
            userMessage := messageText, aiResponse := aiReply }
        let db1 := insertChatLog db chatRow
        let saved :=
          savePipelineContactIg db1 s.assistantId s.userId item.item_id senderName
            senderId messageText aiReply now
        (s1, saved.1,
         [.reply item.item_id t.thread_id aiReply, .chatLog item.item_id chatRow]
           ++ saved.2)

/-- One iteration of the for-loop, threading session, database and the
accumulated effect trace. -/
def checkStep (gw : GatewayResult) (now : Nat)
    (acc : IgSession × Db × List IgEffect) (t : IgThread) : IgSession × Db × List IgEffect :=
  let (s1, db1, es) := acc
  let (s2, db2, es2) := processThread db1 gw now s1 t
  (s2, db2, es ++ es2)

/-- checkNewMessages (lines 2201-2264): process the first 10 threads in
order, then cap the dedup set at 1000 entries by keeping the most recent 500,
and finally stamp lastCheckedTimestamp with the current time. -/
def checkNewMessages (db : Db) (gw : GatewayResult) (now : Nat)
    (s : IgSession) (threads : List IgThread) : IgSession × Db × List IgEffect :=
  let folded := (threads.take 10).foldl (checkStep gw now) (s, db, [])
  let s1 := folded.1
  let s2 :=
    if 1000 < s1.processedMessageIds.length then
      { s1 with processedMessageIds :=
          s1.processedMessageIds.drop (s1.processedMessageIds.length - 500) }
    else s1
  ({ s2 with lastCheckedTimestamp := now }, folded.2.1, folded.2.2)

/-! ## Sample concrete inputs used by witnesses and counterexamples -/

def sampleDb : Db :=
  { assistants := [{ id := 1, name := "Ассистент" }], stages := [], contacts := [],
    chatLogs := [], nextContactId := 0 }

def sampleWaSession : WaSession :=
  { handle := 0, status := .ready, qrCode := none, pairingCode := none,
    userId := "u", assistantId := 1, phoneNumber := none }

def sampleIgSession : IgSession :=
  { ig := 0, status := .connected, username := "acc", userId := "u", assistantId := 1,
    myPk := 7, pollingActive := true, lastCheckedTimestamp := 0,
    processedMessageIds := [], consecutiveErrors := 0, errorMsg := none }

def waEmpty : WaState :=
  { sessions := [], nextHandle := 0, owners := [], destroyedHandles := [], failedInit := [] }

def igEmpty : IgState :=
  { sessions := [], nextClient := 0, owners := [], clientTimers := [] }

/-! ## C9: a WhatsApp message with fromMe has no effect -/

/-- C9: for every inbound WhatsApp message event whose fromMe flag is true,
handleIncomingMessage returns without any effect: the session and database
are unchanged and no gateway call, reply, chat log or pipeline write is
emitted. -/
theorem claim_c9 (db : Db) (s : WaSession) (msg : WaMessage) (gw : GatewayResult)
    (now : Nat) (h : msg.fromMe = true) :
    handleIncomingMessage db s msg gw now = (s, db, []) := by
  simp [handleIncomingMessage, h]

/-- Witness for C9 at a concrete self-sent message. -/
theorem claim_c9_witness :
    handleIncomingMessage sampleDb sampleWaSession
      { fromMe := true, fromId := "79990000000@c.us", body := "hi", pushname := none }
      GatewayResult.err 0
      = (sampleWaSession, sampleDb, []) :=
  claim_c9 _ _ _ _ _ rfl

/-! ## C10: blank Instagram messages are skipped entirely -/

/-- C10: for every polled Instagram thread whose latest message has empty or
whitespace-only text, the loop body skips the message entirely: the session
(in particular its dedup set) and the database are unchanged and no effect is
emitted. -/
theorem claim_c10 (db : Db) (gw : GatewayResult) (now : Nat) (s : IgSession)
    (t : IgThread) (item : IgItem) (hitem : t.last_permanent_item = some item)
    (hblank : jsTrim (jsOrOS item.text "") = "") :
    processThread db gw now s t = (s, db, []) := by
  unfold processThread
  split
  · rfl
  next item2 heq =>
    rw [hitem] at heq
    injection heq with heq
    subst heq
    split
    · rfl
    split
    · rfl
    split
    · rfl
    simp [hblank]

/-- Witness for C10 at a concrete whitespace-only message. -/
theorem claim_c10_witness :
    processThread sampleDb GatewayResult.err 9 sampleIgSession
      { thread_id := "t1", thread_title := some "Alice",
        last_permanent_item := some { item_id := "m1", user_id := 42, timestamp := 5, text := some "   " } }
      = (sampleIgSession, sampleDb, []) :=
  claim_c10 _ _ _ _ _ _ rfl (by decide)

/-! ## C3: ten consecutive non-auth polling errors

The claim says the session transitions to the Disconnected status.  In the
source (lines 2184-2188) the tenth consecutive non-auth error sets status to
the distinct error status, not to disconnected (only the auth-error branch at
lines 2180-2183 sets disconnected); the polling timer is indeed cancelled. -/

/-- C3 counterexample: starting from a freshly connected session, ten
consecutive non-auth polling errors leave the session in the error status,
which is not the disconnected status the claim names. -/
theorem claim_c3_counterexample :
    (pollTicks sampleIgSession (List.replicate 10 PollOutcome.errOther)).status = IgStatus.error ∧
    ¬ (pollTicks sampleIgSession (List.replicate 10 PollOutcome.errOther)).status
        = IgStatus.disconnected := by
  decide

/-- C3 amended: after 10 consecutive non-auth polling errors a connected
Instagram session transitions to the error status (not disconnected), its
polling timer is cancelled, and no later tick makes any further poll
attempt. -/
theorem claim_c3 (s : IgSession) (h1 : s.status = .connected)
    (h2 : s.pollingActive = true) (h3 : s.consecutiveErrors = 0) :
    (pollTicks s (List.replicate 10 PollOutcome.errOther)).status = IgStatus.error ∧
    (pollTicks s (List.replicate 10 PollOutcome.errOther)).pollingActive = false ∧
    ∀ o : PollOutcome,
      pollTick (pollTicks s (List.replicate 10 PollOutcome.errOther)) o
        = (pollTicks s (List.replicate 10 PollOutcome.errOther), false) := by
  obtain ⟨ig, st, un, uid, aid, pk, pa, lc, pm, ce, em⟩ := s
  simp only at h1 h2 h3
  subst h1; subst h2; subst h3
  refine ⟨?_, ?_, ?_⟩
  · simp [pollTicks, pollTick, List.replicate]
  · simp [pollTicks, pollTick, List.replicate]
  · intro o
    simp [pollTicks, pollTick, List.replicate]

/-- Witness for C3 at a concrete connected session. -/
theorem claim_c3_witness :
    (pollTicks sampleIgSession (List.replicate 10 PollOutcome.errOther)).status = IgStatus.error ∧
    (pollTicks sampleIgSession (List.replicate 10 PollOutcome.errOther)).pollingActive = false ∧
    ∀ o : PollOutcome,
      pollTick (pollTicks sampleIgSession (List.replicate 10 PollOutcome.errOther)) o
        = (pollTicks sampleIgSession (List.replicate 10 PollOutcome.errOther), false) :=
  claim_c3 sampleIgSession rfl rfl rfl

/-! ## Association-map lemmas shared by the two registries -/

theorem find?_filter_of_imp {α : Type} (l : List α) (q r : α → Bool)
    (h : ∀ x, q x = true → r x = true) :
    (l.filter r).find? q = l.find? q := by
  induction l with
  | nil => rfl
  | cons a t ih =>
    by_cases hq : q a = true
    · have hr := h a hq
      simp [List.filter_cons, hr, List.find?_cons, hq]
    · by_cases hr : r a = true
      · simp [List.filter_cons, hr, List.find?_cons, hq, ih]
      · simp [List.filter_cons, hr, List.find?_cons, hq, ih]

theorem assocFind_delete {α : Type} (m : List (String × α)) (k : String) :
    (m.filter (fun p => p.1 != k)).find? (fun p => p.1 == k) = none := by
  rw [List.find?_eq_none]
  intro x hx
  have h2 := (List.mem_filter.mp hx).2
  simpa using h2

theorem assocFind_delete_ne {α : Type} (m : List (String × α)) (k k2 : String)
    (h : k2 ≠ k) :
    (m.filter (fun p => p.1 != k)).find? (fun p => p.1 == k2)
      = m.find? (fun p => p.1 == k2) := by
  apply find?_filter_of_imp
  intro x hx
  have : x.1 = k2 := by simpa using hx
  simp [this, h]

theorem mapLookup_delete_self (m : List (String × WaSession)) (k : String) :
    mapLookup (mapDelete m k) k = none := by
  unfold mapLookup mapDelete
  rw [assocFind_delete]
  rfl

theorem mapLookup_delete_ne (m : List (String × WaSession)) (k k2 : String)
    (h : k2 ≠ k) : mapLookup (mapDelete m k) k2 = mapLookup m k2 := by
  unfold mapLookup mapDelete
  rw [assocFind_delete_ne m k k2 h]

theorem mapLookup_set_self (m : List (String × WaSession)) (k : String) (v : WaSession) :
    mapLookup (mapSet m k v) k = some v := by
  unfold mapLookup mapSet
  simp [List.find?_cons]

theorem mapLookup_set_ne (m : List (String × WaSession)) (k k2 : String) (v : WaSession)
    (h : k2 ≠ k) : mapLookup (mapSet m k v) k2 = mapLookup m k2 := by
  unfold mapLookup mapSet
  rw [List.find?_cons]
  have hk : ((k, v).1 == k2) = false := by simpa using Ne.symm h
  simp only [hk]
  rw [assocFind_delete_ne m k k2 h]

theorem igLookup_delete_self (m : List (String × IgSession)) (k : String) :
    igLookup (igDelete m k) k = none := by
  unfold igLookup igDelete
  rw [assocFind_delete]
  rfl

theorem igLookup_delete_ne (m : List (String × IgSession)) (k k2 : String)
    (h : k2 ≠ k) : igLookup (igDelete m k) k2 = igLookup m k2 := by
  unfold igLookup igDelete
  rw [assocFind_delete_ne m k k2 h]

theorem igLookup_set_self (m : List (String × IgSession)) (k : String) (v : IgSession) :
    igLookup (igSet m k v) k = some v := by
  unfold igLookup igSet
  simp [List.find?_cons]

theorem igLookup_set_ne (m : List (String × IgSession)) (k k2 : String) (v : IgSession)
    (h : k2 ≠ k) : igLookup (igSet m k v) k2 = igLookup m k2 := by
  unfold igLookup igSet
  rw [List.find?_cons]
  have hk : ((k, v).1 == k2) = false := by simpa using Ne.symm h
  simp only [hk]
  rw [assocFind_delete_ne m k k2 h]

/-! ## C8: close() semantics

The claim says close returns true exactly when an entry existed, regardless
of teardown failures.  In src/server/whatsapp.ts lines 343-352 a throwing
client.logout() or client.destroy() lands in the catch block, which removes
the entry but returns FALSE even though an entry existed; only the Instagram
variant (inner catch around logout, lines 2415-2424) returns true whenever
an entry existed. -/

def sampleWaState1 : WaState :=
  { sessions := [(getSessionKey "u" 1, sampleWaSession)], nextHandle := 1,
    owners := [(0, getSessionKey "u" 1)], destroyedHandles := [], failedInit := [] }

/-- C8 counterexample: a WhatsApp entry exists, teardown fails, and close
returns false — refuting that close returns true whenever an entry existed. -/
theorem claim_c8_counterexample :
    (mapLookup sampleWaState1.sessions (getSessionKey "u" 1)).isSome = true ∧
    (disconnectSession sampleWaState1 "u" 1 true).2 = false := by
  decide

/-- C8 amended: close returns false when no entry exists and leaves the state
untouched; when an entry exists the entry is always removed, and the returned
flag is true exactly when teardown succeeded — for WhatsApp a throwing
logout/destroy yields false despite the entry having existed, while for
Instagram logout errors are swallowed and close returns true whenever an
entry existed. -/
theorem claim_c8 :
    (∀ (st : WaState) (u : String) (a : Nat) (f : Bool),
       mapLookup st.sessions (getSessionKey u a) = none →
       disconnectSession st u a f = (st, false)) ∧
    (∀ (st : WaState) (u : String) (a : Nat) (f : Bool) (s : WaSession),
       mapLookup st.sessions (getSessionKey u a) = some s →
       mapLookup (disconnectSession st u a f).1.sessions (getSessionKey u a) = none ∧
       ((disconnectSession st u a f).2 = true ↔ f = false)) ∧
    (∀ (st : IgState) (u : String) (a : Nat) (f : Bool),
       igLookup st.sessions (igSessionKey u a) = none →
       disconnectInstagram st u a f = (st, false)) ∧
    (∀ (st : IgState) (u : String) (a : Nat) (f : Bool) (s : IgSession),
       igLookup st.sessions (igSessionKey u a) = some s →
       igLookup (disconnectInstagram st u a f).1.sessions (igSessionKey u a) = none ∧
       (disconnectInstagram st u a f).2 = true) := by
  refine ⟨?_, ?_, ?_, ?_⟩
  · intro st u a f h
    simp only [disconnectSession, h]
  · intro st u a f s h
    simp only [disconnectSession, h]
    cases f
    · simp [mapLookup_delete_self]
    · simp [mapLookup_delete_self]
  · intro st u a f h
    simp only [disconnectInstagram, h]
  · intro st u a f s h
    simp only [disconnectInstagram, h]
    simp [igStopTimer, igLookup_delete_self]

/-- Witness for C8 at concrete states: a missing entry returns false, an
existing WhatsApp entry with teardown failing is removed but reports false,
and an existing Instagram entry is removed and reports true. -/
theorem claim_c8_witness :
    (disconnectSession waEmpty "u" 1 false = (waEmpty, false)) ∧
    (mapLookup (disconnectSession sampleWaState1 "u" 1 true).1.sessions
        (getSessionKey "u" 1) = none ∧
      ((disconnectSession sampleWaState1 "u" 1 true).2 = true ↔ True = False)) ∧
    (disconnectInstagram igEmpty "u" 1 false = (igEmpty, false)) := by
  refine ⟨claim_c8.1 waEmpty "u" 1 false (by decide), ?_, claim_c8.2.2.1 igEmpty "u" 1 false (by decide)⟩
  have h := claim_c8.2.1 sampleWaState1 "u" 1 true sampleWaSession (by decide)
  exact ⟨h.1, by simpa using h.2⟩

/-! ## C7: what happens when open() fails

The claim says every open() failure removes the registry entry, so status()
reports not_connected and a retry is possible.  In the source only the
rejected-initialize path deletes the entry (whatsapp.ts line 153); the
60-second timeout path (lines 158-163) and the auth_failure path (lines
141-147) resolve failure but leave the entry in the map, and the Instagram
login-error path (lines 2138-2142) keeps the entry with status error.  A
retry is nevertheless possible in every case, because open() tears down any
entry that is not ready/connected. -/

/-- True when a fresh open() for the key would not short-circuit: either no
entry exists or the entry is not ready. -/
def waNoReadyEntry (st : WaState) (k : String) : Bool :=
  match mapLookup st.sessions k with
  | none => true
  | some s => s.status != .ready

/-- True when a fresh Instagram open() for the key would not short-circuit. -/
def igNoConnectedEntry (st : IgState) (k : String) : Bool :=
  match igLookup st.sessions k with
  | none => true
  | some s => s.status != .connected

/-- C7 counterexample: an open() that times out waiting for the QR credential
fails, yet the entry is still in the registry and status() reports
initializing rather than not_connected. -/
theorem claim_c7_counterexample :
    ((createWhatsAppSession waEmpty "u" 1 WaInit.timesOut).2).success = false ∧
    (getSessionStatus (createWhatsAppSession waEmpty "u" 1 WaInit.timesOut).1 "u" 1).status
      = "initializing" := by
  decide

theorem igConnectFresh_err (st : IgState) (u : String) (a : Nat) (un : String)
    (now : Nat) (e : IgLogin) (hne : ∀ pk, e ≠ .ok pk) :
    (connectInstagram.igConnectFresh st (igSessionKey u a) u a un now e).2.success = false ∧
    (getInstagramStatus (connectInstagram.igConnectFresh st (igSessionKey u a) u a un now e).1
        u a).status = "error" ∧
    igNoConnectedEntry (connectInstagram.igConnectFresh st (igSessionKey u a) u a un now e).1
        (igSessionKey u a) = true := by
  cases e <;>
    first
      | exact absurd rfl (hne _)
      | refine ⟨?_, ?_, ?_⟩ <;>
          simp [connectInstagram.igConnectFresh, getInstagramStatus, igNoConnectedEntry,
                igLookup_set_self, igStatusStr]

/-- C7 amended: a WhatsApp open() that fails on a rejected initialize removes
the entry (status() then reports not_connected); one that fails by QR timeout
or auth failure leaves the entry with status initializing; an Instagram
open() whose login throws leaves the entry with status error.  In every case
an immediate retry is possible, since no ready/connected entry remains to
short-circuit the next open(). -/
theorem claim_c7 :
    (∀ (st : WaState) (u : String) (a : Nat),
       waNoReadyEntry st (getSessionKey u a) = true →
       (createWhatsAppSession st u a .initFails).2.success = false ∧
       (getSessionStatus (createWhatsAppSession st u a .initFails).1 u a).status
         = "not_connected" ∧
       waNoReadyEntry (createWhatsAppSession st u a .initFails).1 (getSessionKey u a) = true) ∧
    (∀ (st : WaState) (u : String) (a : Nat),
       waNoReadyEntry st (getSessionKey u a) = true →
       (createWhatsAppSession st u a .timesOut).2.success = false ∧
       (getSessionStatus (createWhatsAppSession st u a .timesOut).1 u a).status
         = "initializing" ∧
       waNoReadyEntry (createWhatsAppSession st u a .timesOut).1 (getSessionKey u a) = true) ∧
    (∀ (st : WaState) (u : String) (a : Nat),
       waNoReadyEntry st (getSessionKey u a) = true →
       (createWhatsAppSession st u a .authFails).2.success = false ∧
       (getSessionStatus (createWhatsAppSession st u a .authFails).1 u a).status
         = "initializing" ∧
       waNoReadyEntry (createWhatsAppSession st u a .authFails).1 (getSessionKey u a) = true) ∧
    (∀ (st : IgState) (u : String) (a : Nat) (un : String) (now : Nat) (e : IgLogin),
       (∀ pk, e ≠ .ok pk) →
       igNoConnectedEntry st (igSessionKey u a) = true →
       (connectInstagram st u a un now e).2.success = false ∧
       (getInstagramStatus (connectInstagram st u a un now e).1 u a).status = "error" ∧
       igNoConnectedEntry (connectInstagram st u a un now e).1 (igSessionKey u a) = true) := by
  refine ⟨?_, ?_, ?_, ?_⟩
  · intro st u a h
    unfold waNoReadyEntry at h
    cases hlk : mapLookup st.sessions (getSessionKey u a) with
    | none =>
      simp only [createWhatsAppSession, hlk]
      refine ⟨?_, ?_, ?_⟩ <;>
        simp [waFresh, getSessionStatus, waNoReadyEntry, mapLookup_delete_self]
    | some s =>
      rw [hlk] at h
      have hs : ¬ s.status = .ready := by simpa using h
      simp only [createWhatsAppSession, hlk, if_neg hs]
      refine ⟨?_, ?_, ?_⟩ <;>
        simp [waFresh, getSessionStatus, waNoReadyEntry, mapLookup_delete_self]
  · intro st u a h
    unfold waNoReadyEntry at h
    cases hlk : mapLookup st.sessions (getSessionKey u a) with
    | none =>
      simp only [createWhatsAppSession, hlk]
      refine ⟨?_, ?_, ?_⟩ <;>
        simp [waFresh, getSessionStatus, waNoReadyEntry, mapLookup_set_self, waStatusStr]
    | some s =>
      rw [hlk] at h
      have hs : ¬ s.status = .ready := by simpa using h
      simp only [createWhatsAppSession, hlk, if_neg hs]
      refine ⟨?_, ?_, ?_⟩ <;>
        simp [waFresh, getSessionStatus, waNoReadyEntry, mapLookup_set_self, waStatusStr]
  · intro st u a h
    unfold waNoReadyEntry at h
    cases hlk : mapLookup st.sessions (getSessionKey u a) with
    | none =>
      simp only [createWhatsAppSession, hlk]
      refine ⟨?_, ?_, ?_⟩ <;>
        simp [waFresh, getSessionStatus, waNoReadyEntry, mapLookup_set_self, waStatusStr]
    | some s =>
      rw [hlk] at h
      have hs : ¬ s.status = .ready := by simpa using h
      simp only [createWhatsAppSession, hlk, if_neg hs]
      refine ⟨?_, ?_, ?_⟩ <;>
        simp [waFresh, getSessionStatus, waNoReadyEntry, mapLookup_set_self, waStatusStr]
  · intro st u a un now e hne h
    unfold igNoConnectedEntry at h
    cases hlk : igLookup st.sessions (igSessionKey u a) with
    | none =>
      simp only [connectInstagram, hlk]
      exact igConnectFresh_err _ u a un now e hne
    | some s =>
      rw [hlk] at h
      have hs : ¬ s.status = .connected := by simpa using h
      simp only [connectInstagram, hlk, if_neg hs]
      exact igConnectFresh_err _ u a un now e hne

/-- Witness for C7 at the empty registries with a concrete failing login. -/
theorem claim_c7_witness :
    ((createWhatsAppSession waEmpty "u" 1 .initFails).2.success = false ∧
       (getSessionStatus (createWhatsAppSession waEmpty "u" 1 .initFails).1 "u" 1).status
         = "not_connected" ∧
       waNoReadyEntry (createWhatsAppSession waEmpty "u" 1 .initFails).1 (getSessionKey "u" 1)
         = true) ∧
    ((connectInstagram igEmpty "u" 1 "acc" 0 .badPassword).2.success = false ∧
       (getInstagramStatus (connectInstagram igEmpty "u" 1 "acc" 0 .badPassword).1 "u" 1).status
         = "error" ∧
       igNoConnectedEntry (connectInstagram igEmpty "u" 1 "acc" 0 .badPassword).1
         (igSessionKey "u" 1) = true) :=
  ⟨claim_c7.1 waEmpty "u" 1 (by decide),
   claim_c7.2.2.2 igEmpty "u" 1 "acc" 0 .badPassword
     (fun pk h => IgLogin.noConfusion h) (by decide)⟩

/-! ## C4: gateway failure handling

The claim says that on every channel a failed completion call still produces
a fallback reply and a chat log entry.  This holds for Instagram, whose
generateAIResponse catches the error and returns the apology text which the
loop then sends and logs.  It fails for WhatsApp: a thrown generateContent
call lands in the outer catch of handleIncomingMessage (line 309), which only
logs — no reply is sent and no chat log is written (the fallback text is used
only when the call SUCCEEDS with an empty response.text).  The session status
is left untouched on both channels. -/

def sampleWaMsg : WaMessage :=
  { fromMe := false, fromId := "79990000000@c.us", body := "Привет", pushname := some "Боб" }

/-- C4 counterexample: on WhatsApp a thrown gateway call aborts the handler —
the returned effect trace has no reply and no chat log, and the database is
unchanged — refuting that every channel still sends a fallback and persists a
log. -/
theorem claim_c4_counterexample :
    handleIncomingMessage sampleDb sampleWaSession sampleWaMsg GatewayResult.err 0
      = (sampleWaSession, sampleDb, [WaEffect.gatewayCall]) := by
  decide

/-- The chat log row the Instagram loop writes when the gateway fails. -/
def igFallbackChatRow (s : IgSession) (t : IgThread) (item : IgItem) : ChatLogRow :=
  { assistantId := s.assistantId, userId := s.userId, channel := "instagram",
    senderName := some (jsOrOS t.thread_title "Instagram User"),
    senderContact := "@" ++ toString item.user_id,
    userMessage := jsOrOS item.text "", aiResponse := waFallbackText }

/-- C4 amended: when the completion gateway call fails on a qualifying
inbound message, the Instagram loop still sends the fallback apology text,
still appends a chat log row, and leaves the session fields other than the
dedup set (in particular the status) unchanged; the WhatsApp handler instead
aborts in its outer catch — no fallback is sent and no chat log is written —
though its session record and the database are also left unchanged. -/
theorem claim_c4 :
    (∀ (db : Db) (s : WaSession) (msg : WaMessage) (now : Nat) (a : Assistant),
       msg.fromMe = false →
       findAssistant db s.assistantId = some a →
       handleIncomingMessage db s msg .err now = (s, db, [.gatewayCall])) ∧
    (∀ (db : Db) (now : Nat) (s : IgSession) (t : IgThread) (item : IgItem) (a : Assistant),
       t.last_permanent_item = some item →
       s.processedMessageIds.contains item.item_id = false →
       ¬ (s.myPk ≠ 0 ∧ item.user_id = s.myPk) →
       ¬ item.timestamp < s.lastCheckedTimestamp →
       jsTrim (jsOrOS item.text "") ≠ "" →
       findAssistant db s.assistantId = some a →
       processThread db .err now s t
         = ({ s with processedMessageIds := setAdd s.processedMessageIds item.item_id },
            insertChatLog db (igFallbackChatRow s t item),
            [.reply item.item_id t.thread_id waFallbackText,
             .chatLog item.item_id (igFallbackChatRow s t item)])) := by
  constructor
  · intro db s msg now a hfm hassist
    simp [handleIncomingMessage, hfm, hassist]
  · intro db now s t item a hitem hdedup hself hts htext hassist
    have hext : extractStageFromResponse waFallbackText = none := by decide
    unfold processThread
    split
    next heq =>
      rw [hitem] at heq
      cases heq
    next item2 heq =>
      rw [hitem] at heq
      injection heq with heq
      subst heq
      rw [if_neg (by simpa using hdedup), if_neg hself, if_neg hts, if_neg htext]
      simp [generateAIResponse, hassist, savePipelineContactIg, hext, igFallbackChatRow,
            insertChatLog]

/-- Witness for C4: a concrete WhatsApp message and a concrete qualifying
Instagram message, both with the gateway failing. -/
theorem claim_c4_witness :
    (handleIncomingMessage sampleDb sampleWaSession sampleWaMsg .err 0
       = (sampleWaSession, sampleDb, [.gatewayCall])) ∧
    (processThread sampleDb .err 5 sampleIgSession
       { thread_id := "t1", thread_title := some "Alice",
         last_permanent_item := some
           { item_id := "m2", user_id := 42, timestamp := 7, text := some "Сколько стоит?" } }
       = ({ sampleIgSession with processedMessageIds := setAdd sampleIgSession.processedMessageIds "m2" },
          insertChatLog sampleDb
            (igFallbackChatRow sampleIgSession
              { thread_id := "t1", thread_title := some "Alice",
                last_permanent_item := some
                  { item_id := "m2", user_id := 42, timestamp := 7, text := some "Сколько стоит?" } }
              { item_id := "m2", user_id := 42, timestamp := 7, text := some "Сколько стоит?" }),
          [.reply "m2" "t1" waFallbackText,
           .chatLog "m2"
             (igFallbackChatRow sampleIgSession
               { thread_id := "t1", thread_title := some "Alice",
                 last_permanent_item := some
                   { item_id := "m2", user_id := 42, timestamp := 7, text := some "Сколько стоит?" } }
               { item_id := "m2", user_id := 42, timestamp := 7, text := some "Сколько стоит?" })])) :=
  ⟨claim_c4.1 sampleDb sampleWaSession sampleWaMsg 0 { id := 1, name := "Ассистент" } rfl rfl,
   claim_c4.2 sampleDb 5 sampleIgSession _ _ { id := 1, name := "Ассистент" }
     rfl (by decide) (by decide) (by decide) (by decide) rfl⟩

/-! ## C2: the dedup set prevents re-relaying

Every effect the loop emits is tagged with the item_id of the message that
triggered it; a message whose item_id is already in the dedup set takes the
early continue at line 2213, so no effect of a poll carries its id. -/

theorem savePipelineContactIg_itemIds (db : Db) (aid : Nat) (uid itemId sn sid um ar : String)
    (now : Nat) :
    ∀ e ∈ (savePipelineContactIg db aid uid itemId sn sid um ar now).2, e.itemId = itemId := by
  unfold savePipelineContactIg
  split
  · simp
  · split
    · simp
    · dsimp only
      split <;> simp [IgEffect.itemId]

theorem setAdd_contains_of (l : List String) (x y : String) (h : l.contains y = true) :
    (setAdd l x).contains y = true := by
  unfold setAdd
  split
  · exact h
  · have hy : y ∈ l := by simpa using h
    simp [List.mem_append, hy]

theorem processThread_skips_processed (db : Db) (gw : GatewayResult) (now : Nat)
    (s : IgSession) (t : IgThread) (msgId : String)
    (h : s.processedMessageIds.contains msgId = true) :
    (∀ e ∈ (processThread db gw now s t).2.2, e.itemId ≠ msgId) ∧
    (processThread db gw now s t).1.processedMessageIds.contains msgId = true := by
  unfold processThread
  split
  · exact ⟨by simp, h⟩
  next item heq =>
    split
    · exact ⟨by simp, h⟩
    next hdedup =>
      split
      · exact ⟨by simp, h⟩
      split
      · exact ⟨by simp, h⟩
      dsimp only
      split
      · exact ⟨by simp, h⟩
      have hne : item.item_id ≠ msgId := by
        intro he
        rw [he] at hdedup
        exact hdedup (by simpa using h)
      refine ⟨?_, ?_⟩
      · intro e he
        simp only [List.mem_append, List.mem_cons, List.not_mem_nil, or_false] at he
        rcases he with ((rfl | rfl) | hpipe)
        · simpa [IgEffect.itemId] using hne
        · simpa [IgEffect.itemId] using hne
        · have := savePipelineContactIg_itemIds _ _ _ _ _ _ _ _ _ e hpipe
          rw [this]
          exact hne
      · exact setAdd_contains_of _ _ _ h

theorem foldl_checkStep_itemIds (gw : GatewayResult) (now : Nat) (msgId : String) :
    ∀ (l : List IgThread) (acc : IgSession × Db × List IgEffect),
      acc.1.processedMessageIds.contains msgId = true →
      (∀ e ∈ acc.2.2, e.itemId ≠ msgId) →
      ∀ e ∈ (l.foldl (checkStep gw now) acc).2.2, e.itemId ≠ msgId := by
  intro l
  induction l with
  | nil =>
    intro acc h1 h2
    simpa using h2
  | cons t ts ih =>
    intro acc h1 h2
    rw [List.foldl_cons]
    obtain ⟨s, dbacc, es⟩ := acc
    have hp := processThread_skips_processed dbacc gw now s t msgId h1
    apply ih
    · exact hp.2
    · intro e he
      simp only [checkStep, List.mem_append] at he
      rcases he with hold | hnew
      · exact h2 e hold
      · exact hp.1 e hnew

/-- C2: a message whose external item identifier is already in the dedup set
of a session is skipped on the poll: no emitted effect (reply, chat log or
pipeline write) of checkNewMessages carries that identifier. -/
theorem claim_c2 (db : Db) (gw : GatewayResult) (now : Nat) (s : IgSession)
    (threads : List IgThread) (msgId : String)
    (h : s.processedMessageIds.contains msgId = true) :
    ((checkNewMessages db gw now s threads).2.2.all
       (fun e => e.itemId != msgId)) = true := by
  rw [List.all_eq_true]
  intro e he
  have hmem : e ∈ ((threads.take 10).foldl (checkStep gw now) (s, db, [])).2.2 := by
    simpa [checkNewMessages] using he
  have := foldl_checkStep_itemIds gw now msgId (threads.take 10) (s, db, [])
    (by simpa using h) (by simp) e hmem
  simpa using this

/-- Witness for C2: a concrete poll whose only thread carries an
already-processed identifier emits no effect tagged with it. -/
theorem claim_c2_witness :
    ((checkNewMessages sampleDb (GatewayResult.ok "Здравствуйте!") 50
        { sampleIgSession with processedMessageIds := ["m1"] }
        [{ thread_id := "t1", thread_title := some "Alice",
           last_permanent_item := some
             { item_id := "m1", user_id := 42, timestamp := 7, text := some "Привет" } }]).2.2.all
       (fun e => e.itemId != "m1")) = true :=
  claim_c2 sampleDb (GatewayResult.ok "Здравствуйте!") 50
    { sampleIgSession with processedMessageIds := ["m1"] }
    [{ thread_id := "t1", thread_title := some "Alice",
       last_permanent_item := some
         { item_id := "m1", user_id := 42, timestamp := 7, text := some "Привет" } }]
    "m1" (by decide)

/-! ## C5: the stage extractor -/

theorem scanForStage_of_no_bracket (l : List Char) (h : l.contains '[' = false) :
    scanForStage l = none := by
  induction l with
  | nil => rfl
  | cons c t ih =>
    have h2 : ¬ '[' ∈ c :: t := by simpa using h
    have hc : ¬ c = '[' := fun hcc => h2 (by simp [hcc])
    have ht : t.contains '[' = false := by
      simp only [List.mem_cons, not_or] at h2
      simpa using h2.2
    simp only [scanForStage]
    rw [if_neg hc]
    exact ih ht

theorem scanForStage_append (pre rest : List Char) (h : pre.contains '[' = false) :
    scanForStage (pre ++ rest) = scanForStage rest := by
  induction pre with
  | nil => rfl
  | cons c t ih =>
    have h2 : ¬ '[' ∈ c :: t := by simpa using h
    have hc : ¬ c = '[' := fun hcc => h2 (by simp [hcc])
    have ht : t.contains '[' = false := by
      simp only [List.mem_cons, not_or] at h2
      simpa using h2.2
    simp only [List.cons_append]
    simp only [scanForStage]
    rw [if_neg hc]
    exact ih ht

theorem matchKeywordCI_map_lower (l : List Char) : ∀ r : List Char,
    matchKeywordCI (l.map lowerChar) (l ++ r) = some r := by
  induction l with
  | nil => intro r; rfl
  | cons c t ih =>
    intro r
    simp only [List.map_cons, List.cons_append]
    simp only [matchKeywordCI]
    simpa using ih r

theorem matchKeywordCI_stadia_of_stage (l r : List Char) (h : l.map lowerChar = labelStage) :
    matchKeywordCI labelStadia (l ++ r) = none := by
  cases l with
  | nil => exact absurd h (by decide)
  | cons c t =>
    rw [List.map_cons] at h
    have hc : lowerChar c = 's' := by
      have h2 := congrArg List.head? h
      simpa [labelStage] using h2
    have hform : labelStadia = 'с' :: "тадия".data := rfl
    rw [hform]
    simp only [List.cons_append]
    simp only [matchKeywordCI]
    rw [if_neg (by rw [hc]; decide)]

theorem lazyGroupGo_exact (g : List Char) : ∀ (acc rest : List Char),
    g.all jsDotChar = true → g.contains ']' = false →
    lazyGroupGo acc (g ++ ']' :: rest) = some (acc.reverse ++ g) := by
  induction g with
  | nil =>
    intro acc rest _ _
    simp [lazyGroupGo]
  | cons c t ih =>
    intro acc rest hdot hbr
    have h2 : ¬ ']' ∈ c :: t := by simpa using hbr
    have hc : ¬ c = ']' := fun hcc => h2 (by simp [hcc])
    have ht : t.contains ']' = false := by
      simp only [List.mem_cons, not_or] at h2
      simpa using h2.2
    have hcd : jsDotChar c = true := by
      have := List.all_eq_true.mp hdot c (by simp)
      exact this
    have htd : t.all jsDotChar = true := by
      rw [List.all_eq_true] at hdot ⊢
      intro x hx
      exact hdot x (by simp [hx])
    simp only [List.cons_append]
    simp only [lazyGroupGo]
    rw [if_neg hc, if_pos hcd]
    rw [ih (c :: acc) rest htd ht]
    simp

theorem lazyGroup_exact (g rest : List Char) (hne : g ≠ [])
    (hdot : g.all jsDotChar = true) (hbr : g.contains ']' = false) :
    lazyGroup (g ++ ']' :: rest) = some g := by
  cases g with
  | nil => exact absurd rfl hne
  | cons c t =>
    have hcd : jsDotChar c = true := List.all_eq_true.mp hdot c (by simp)
    have htd : t.all jsDotChar = true := by
      rw [List.all_eq_true] at hdot ⊢
      intro x hx
      exact hdot x (by simp [hx])
    have ht : t.contains ']' = false := by
      have h2 : ¬ ']' ∈ c :: t := by simpa using hbr
      simp only [List.mem_cons, not_or] at h2
      simpa using h2.2
    simp only [List.cons_append]
    simp only [lazyGroup]
    rw [if_pos hcd]
    rw [lazyGroupGo_exact t [c] rest htd ht]
    simp

theorem wsBacktrack_of_drop (l : List Char) (n : Nat) (g : List Char)
    (h : lazyGroup (l.drop n) = some g) : wsBacktrack l n = some g := by
  cases n with
  | zero => simpa [wsBacktrack] using h
  | succ m =>
    simp only [wsBacktrack, h]

theorem takeWhile_append_of_dropWhile_ne (p : Char → Bool) :
    ∀ (l r : List Char), l.dropWhile p ≠ [] →
    (l ++ r).takeWhile p = l.takeWhile p := by
  intro l
  induction l with
  | nil => intro r h; exact absurd rfl h
  | cons c t ih =>
    intro r h
    by_cases hc : p c = true
    · rw [List.dropWhile_cons, if_pos hc] at h
      simp only [List.cons_append, List.takeWhile_cons, if_pos hc]
      rw [ih r h]
    · simp only [List.cons_append, List.takeWhile_cons, if_neg hc]

theorem drop_takeWhile_append (p : Char → Bool) (l r : List Char) :
    (l ++ r).drop (l.takeWhile p).length = l.dropWhile p ++ r := by
  have h : l ++ r = l.takeWhile p ++ (l.dropWhile p ++ r) := by
    rw [← List.append_assoc, List.takeWhile_append_dropWhile]
  rw [h, List.drop_left]

theorem matchAfterColon_exact (name rest : List Char)
    (hne : name.dropWhile jsWsChar ≠ [])
    (hdot : (name.dropWhile jsWsChar).all jsDotChar = true)
    (hbr : (name.dropWhile jsWsChar).contains ']' = false) :
    matchAfterColon (name ++ ']' :: rest) = some (name.dropWhile jsWsChar) := by
  unfold matchAfterColon
  rw [takeWhile_append_of_dropWhile_ne jsWsChar name (']' :: rest) hne]
  apply wsBacktrack_of_drop
  rw [drop_takeWhile_append]
  exact lazyGroup_exact _ rest hne hdot hbr

theorem matchAfterBracket_exact (label name rest : List Char)
    (hlab : label.map lowerChar = labelStadia ∨ label.map lowerChar = labelStage)
    (hne : name.dropWhile jsWsChar ≠ [])
    (hdot : (name.dropWhile jsWsChar).all jsDotChar = true)
    (hbr : (name.dropWhile jsWsChar).contains ']' = false) :
    matchAfterBracket (label ++ ':' :: (name ++ ']' :: rest))
      = some (name.dropWhile jsWsChar) := by
  unfold matchAfterBracket
  rcases hlab with hl | hl
  · have hk : matchKeywordCI labelStadia (label ++ ':' :: (name ++ ']' :: rest))
        = some (':' :: (name ++ ']' :: rest)) := by
      rw [← hl]
      exact matchKeywordCI_map_lower label _
    rw [hk]
    dsimp only
    rw [if_pos rfl]
    exact matchAfterColon_exact name rest hne hdot hbr
  · have hk0 : matchKeywordCI labelStadia (label ++ ':' :: (name ++ ']' :: rest)) = none :=
      matchKeywordCI_stadia_of_stage label _ hl
    have hk : matchKeywordCI labelStage (label ++ ':' :: (name ++ ']' :: rest))
        = some (':' :: (name ++ ']' :: rest)) := by
      rw [← hl]
      exact matchKeywordCI_map_lower label _
    rw [hk0, hk]
    dsimp only
    rw [if_pos rfl]
    exact matchAfterColon_exact name rest hne hdot hbr

theorem dropWhile_idem (p : Char → Bool) (l : List Char) :
    (l.dropWhile p).dropWhile p = l.dropWhile p := by
  induction l with
  | nil => rfl
  | cons c t ih =>
    by_cases hc : p c = true
    · rw [List.dropWhile_cons, if_pos hc]
      exact ih
    · rw [List.dropWhile_cons, if_neg hc, List.dropWhile_cons, if_neg hc]

theorem jsTrimList_dropWhile (l : List Char) :
    jsTrimList (l.dropWhile jsWsChar) = jsTrimList l := by
  unfold jsTrimList
  rw [dropWhile_idem]

/-- C5: the stage extractor extracts the trimmed name from the first
bracketed stage label: the two concrete examples of the spec hold, any text
without an opening bracket extracts none, and for any text of the shape
pre [label: name] post — where the label folds case-insensitively to Stage or
Стадия, pre holds no opening bracket, and the name has a non-whitespace
character, no closing bracket and no line terminator — the extractor returns
exactly the trimmed name. -/
theorem claim_c5 :
    extractStageFromResponse "Thanks! [Stage: Qualified]" = some "Qualified" ∧
    extractStageFromResponse "[stage: Closed Won]" = some "Closed Won" ∧
    (∀ s : String, s.data.contains '[' = false → extractStageFromResponse s = none) ∧
    (∀ pre label name post : String,
       (label.data.map lowerChar = labelStadia ∨ label.data.map lowerChar = labelStage) →
       pre.data.contains '[' = false →
       name.data.dropWhile jsWsChar ≠ [] →
       (name.data.dropWhile jsWsChar).all jsDotChar = true →
       (name.data.dropWhile jsWsChar).contains ']' = false →
       extractStageFromResponse (pre ++ "[" ++ label ++ ":" ++ name ++ "]" ++ post)
         = some (jsTrim name)) := by
  refine ⟨by decide, by decide, ?_, ?_⟩
  · intro s hs
    unfold extractStageFromResponse
    rw [scanForStage_of_no_bracket s.data hs]
  · intro pre label name post hlab hpre hne hdot hbr
    unfold extractStageFromResponse
    have hdata : (pre ++ "[" ++ label ++ ":" ++ name ++ "]" ++ post).data
        = pre.data ++ ('[' :: (label.data ++ ':' :: (name.data ++ ']' :: post.data))) := by
      simp [String.data_append]
    rw [hdata, scanForStage_append _ _ hpre]
    simp only [scanForStage, if_true]
    rw [matchAfterBracket_exact label.data name.data post.data hlab hne hdot hbr]
    dsimp only
    rw [jsTrim]
    rw [jsTrimList_dropWhile]

/-- Witness for C5 at a concrete localized upper-case label with padding. -/
theorem claim_c5_witness :
    extractStageFromResponse ("Итак! " ++ "[" ++ "СТАДИЯ" ++ ":" ++ " Оплата " ++ "]" ++ " конец")
      = some (jsTrim " Оплата ") :=
  claim_c5.2.2.2 "Итак! " "СТАДИЯ" " Оплата " " конец"
    (Or.inl (by decide)) (by decide) (by decide) (by decide) (by decide)

/-! ## C6: the pipeline contact upsert keeps one row per key -/

/-- Number of pipeline contact rows stored under (assistantId, clientContact). -/
def contactKeyCount (db : Db) (aid : Nat) (cid : String) : Nat :=
  db.contacts.countP (fun c => c.assistantId == aid && c.clientContact == some cid)

theorem countP_updateContactById (l : List ContactRow) (i : Nat) (f : ContactRow → ContactRow)
    (q : ContactRow → Bool) (hf : ∀ c, q (f c) = q c) :
    (updateContactById l i f).countP q = l.countP q := by
  unfold updateContactById
  rw [List.countP_map]
  apply List.countP_congr
  intro c hc
  by_cases h : (c.id == i) = true
  · simp [Function.comp, h, hf]
  · simp [Function.comp, h]

theorem eq_of_countP_le_one {α : Type} (q : α → Bool) :
    ∀ (l : List α), l.countP q ≤ 1 →
      ∀ a ∈ l, q a = true → ∀ b ∈ l, q b = true → a = b := by
  intro l
  induction l with
  | nil =>
    intro _ a ha
    cases ha
  | cons x t ih =>
    intro h a ha hqa b hb hqb
    rw [List.countP_cons] at h
    rcases List.mem_cons.mp ha with rfl | ha2
    · rcases List.mem_cons.mp hb with rfl | hb2
      · rfl
      · rw [if_pos hqa] at h
        have ht : t.countP q = 0 := by omega
        exact absurd hqb (List.countP_eq_zero.mp ht b hb2)
    · rcases List.mem_cons.mp hb with rfl | hb2
      · rw [if_pos hqb] at h
        have ht : t.countP q = 0 := by omega
        exact absurd hqa (List.countP_eq_zero.mp ht a ha2)
      · have ht : t.countP q ≤ 1 := by
          by_cases hx : q x = true
          · rw [if_pos hx] at h; omega
          · rw [if_neg hx] at h; omega
        exact ih ht a ha2 hqa b hb2 hqb

theorem saveOrUpdate_stages (db : Db) (p : PipelineParams) (now : Nat) :
    (saveOrUpdatePipelineContact db p now).stages = db.stages := by
  unfold saveOrUpdatePipelineContact
  split
  · rfl
  · dsimp only
    split <;> rfl

/-- One upsert call never raises any per-key row count above one. -/
theorem saveOrUpdate_keyCount_le (db : Db) (p : PipelineParams) (now : Nat)
    (aid2 : Nat) (cid2 : String)
    (h : contactKeyCount db aid2 cid2 ≤ 1) :
    contactKeyCount (saveOrUpdatePipelineContact db p now) aid2 cid2 ≤ 1 := by
  unfold saveOrUpdatePipelineContact
  split
  · exact h
  next stage hst =>
    dsimp only
    split
    next existing hfc =>
      unfold contactKeyCount at h ⊢
      dsimp only
      rw [countP_updateContactById]
      · exact h
      · intro c
        rfl
    next hfc =>
      unfold contactKeyCount at h ⊢
      dsimp only
      rw [List.countP_append]
      by_cases hkey : aid2 = p.assistantId ∧ cid2 = contactIdentifierOf p
      · obtain ⟨rfl, rfl⟩ := hkey
        have hz : db.contacts.countP
            (fun c => c.assistantId == p.assistantId &&
                      c.clientContact == some (contactIdentifierOf p)) = 0 := by
          rw [List.countP_eq_zero]
          intro c hc
          exact fun hq => (List.find?_eq_none.mp hfc c hc) hq
        rw [hz]
        simp
      · have hrow : ((fun c => c.assistantId == aid2 && c.clientContact == some cid2)
            ({ id := db.nextContactId, userId := p.userId, assistantId := p.assistantId,
               stageId := stage.id,
               clientName := some (jsOrOS p.clientName (placeholderClientName p.channel)),
               clientContact := some (contactIdentifierOf p), channel := p.channel,
               lastMessage := some p.lastMessage, stageName := p.stageName,
               createdAt := now, updatedAt := now } : ContactRow)) = false := by
          by_contra hcon
          rw [Bool.not_eq_false] at hcon
          simp only [Bool.and_eq_true, beq_iff_eq, Option.some.injEq] at hcon
          exact hkey ⟨hcon.1.symm, hcon.2.symm⟩
        simp only [List.countP_cons, List.countP_nil, hrow]
        simpa using h

/-- One successful upsert call leaves exactly one row under its key, whose
lastMessage is the message passed in. -/
theorem saveOrUpdate_upsert (db : Db) (p : PipelineParams) (now : Nat)
    (hstage : (findStage db p.assistantId p.stageName).isSome = true)
    (hle : contactKeyCount db p.assistantId (contactIdentifierOf p) ≤ 1) :
    contactKeyCount (saveOrUpdatePipelineContact db p now) p.assistantId
        (contactIdentifierOf p) = 1 ∧
    ∀ c ∈ (saveOrUpdatePipelineContact db p now).contacts,
      (c.assistantId == p.assistantId &&
       c.clientContact == some (contactIdentifierOf p)) = true →
      c.lastMessage = some p.lastMessage := by
  unfold saveOrUpdatePipelineContact
  split
  next hst =>
    rw [hst] at hstage
    cases hstage
  next stage hst =>
    dsimp only
    split
    next existing hfc =>
      have hpred := List.find?_some hfc
      have hmem := List.mem_of_find?_eq_some hfc
      constructor
      · unfold contactKeyCount at hle ⊢
        dsimp only
        rw [countP_updateContactById]
        case hf => intro c; rfl
        have hpos : 0 < db.contacts.countP
            (fun c => c.assistantId == p.assistantId &&
                      c.clientContact == some (contactIdentifierOf p)) :=
          List.countP_pos_iff.mpr ⟨existing, hmem, hpred⟩
        omega
      · intro c hc hq
        dsimp only [updateContactById] at hc
        obtain ⟨c0, hc0mem, hc0⟩ := List.mem_map.mp hc
        by_cases hid : (c0.id == existing.id) = true
        · rw [if_pos hid] at hc0
          rw [← hc0]
        · rw [if_neg hid] at hc0
          subst hc0
          have := eq_of_countP_le_one _ db.contacts hle c0 hc0mem hq existing hmem hpred
          rw [this] at hid
          simp at hid
    next hfc =>
      have hz : db.contacts.countP
          (fun c => c.assistantId == p.assistantId &&
                    c.clientContact == some (contactIdentifierOf p)) = 0 := by
        rw [List.countP_eq_zero]
        intro c hc
        exact fun hq => (List.find?_eq_none.mp hfc c hc) hq
      constructor
      · unfold contactKeyCount
        dsimp only
        rw [List.countP_append, hz]
        simp
      · intro c hc hq
        dsimp only at hc
        rcases List.mem_append.mp hc with hold | hnew
        · exact absurd hq (by simpa using List.countP_eq_zero.mp hz c hold)
        · simp only [List.mem_cons, List.not_mem_nil, or_false] at hnew
          rw [hnew]

/-- C6: the pipeline contact upsert never creates a second row for any
(assistantId, clientContact) key, and calling it twice with identical
(assistantId, contactIdentifier) and different lastMessage values (both
resolving their stage) leaves exactly one row for that key, holding the
latest lastMessage. -/
theorem claim_c6 :
    (∀ (db : Db) (p : PipelineParams) (now : Nat) (aid : Nat) (cid : String),
       contactKeyCount db aid cid ≤ 1 →
       contactKeyCount (saveOrUpdatePipelineContact db p now) aid cid ≤ 1) ∧
    (∀ (db : Db) (p1 p2 : PipelineParams) (n1 n2 : Nat),
       p1.assistantId = p2.assistantId →
       contactIdentifierOf p1 = contactIdentifierOf p2 →
       (findStage db p1.assistantId p1.stageName).isSome = true →
       (findStage db p2.assistantId p2.stageName).isSome = true →
       p1.lastMessage ≠ p2.lastMessage →
       contactKeyCount db p2.assistantId (contactIdentifierOf p2) ≤ 1 →
       contactKeyCount
           (saveOrUpdatePipelineContact (saveOrUpdatePipelineContact db p1 n1) p2 n2)
           p2.assistantId (contactIdentifierOf p2) = 1 ∧
       ((saveOrUpdatePipelineContact (saveOrUpdatePipelineContact db p1 n1) p2 n2).contacts.all
          (fun c => !(c.assistantId == p2.assistantId &&
                      c.clientContact == some (contactIdentifierOf p2)) ||
                    c.lastMessage == some p2.lastMessage)) = true) := by
  constructor
  · exact saveOrUpdate_keyCount_le
  · intro db p1 p2 n1 n2 haid hcid hst1 hst2 hdiff hle
    have hle1 : contactKeyCount (saveOrUpdatePipelineContact db p1 n1) p2.assistantId
        (contactIdentifierOf p2) ≤ 1 :=
      saveOrUpdate_keyCount_le db p1 n1 _ _ hle
    have hst2b : (findStage (saveOrUpdatePipelineContact db p1 n1) p2.assistantId
        p2.stageName).isSome = true := by
      unfold findStage
      rw [saveOrUpdate_stages]
      exact hst2
    have h := saveOrUpdate_upsert (saveOrUpdatePipelineContact db p1 n1) p2 n2 hst2b hle1
    refine ⟨h.1, ?_⟩
    rw [List.all_eq_true]
    intro c hc
    by_cases hq : (c.assistantId == p2.assistantId &&
        c.clientContact == some (contactIdentifierOf p2)) = true
    · have := h.2 c hc hq
      simp [hq, this]
    · simp [hq]

def samplePipeDb : Db :=
  { assistants := [{ id := 1, name := "Ассистент" }],
    stages := [{ id := 3, assistantId := 1, name := "Оплата", sortOrder := 0 }],
    contacts := [], chatLogs := [], nextContactId := 0 }

def samplePipeP1 : PipelineParams :=
  { assistantId := 1, userId := "u", channel := "whatsapp", clientName := some "Боб",
    clientContact := some "79990000000@c.us", stageName := "Оплата", lastMessage := "первое" }

def samplePipeP2 : PipelineParams :=
  { assistantId := 1, userId := "u", channel := "whatsapp", clientName := some "Боб",
    clientContact := some "79990000000@c.us", stageName := "Оплата", lastMessage := "второе" }

/-- Witness for C6: two concrete upserts for the same contact with different
messages leave one row carrying the second message. -/
theorem claim_c6_witness :
    contactKeyCount
        (saveOrUpdatePipelineContact (saveOrUpdatePipelineContact samplePipeDb samplePipeP1 1)
          samplePipeP2 2)
        samplePipeP2.assistantId (contactIdentifierOf samplePipeP2) = 1 ∧
    ((saveOrUpdatePipelineContact (saveOrUpdatePipelineContact samplePipeDb samplePipeP1 1)
          samplePipeP2 2).contacts.all
       (fun c => !(c.assistantId == samplePipeP2.assistantId &&
                   c.clientContact == some (contactIdentifierOf samplePipeP2)) ||
                 c.lastMessage == some samplePipeP2.lastMessage)) = true :=
  claim_c6.2 samplePipeDb samplePipeP1 samplePipeP2 1 2 rfl rfl (by decide) (by decide)
    (by decide) (by decide)

/-! ## C1: at most one registry entry and one live handle per key

The invariants below relate each registry to the log of created handles:
under any reachable state, a key has exactly one live handle when it has an
entry and none otherwise, so a second open() can never leave two live
handles. -/

theorem liveP_iff (d f : List Nat) (k : String) (p : Nat × String) :
    liveP d f k p = true ↔ p.2 = k ∧ p.1 ∉ d ∧ p.1 ∉ f := by
  simp [liveP, and_assoc]

theorem liveP_key {d f : List Nat} {k : String} {p : Nat × String}
    (h : liveP d f k p = true) : p.2 = k :=
  ((liveP_iff d f k p).mp h).1

theorem countP_assocSet_self {α : Type} (m : List (String × α)) (k : String) (v : α) :
    (((k, v) :: m.filter (fun p => p.1 != k)).countP (fun p => p.1 == k)) = 1 := by
  rw [List.countP_cons]
  have hz : (m.filter (fun p => p.1 != k)).countP (fun p => p.1 == k) = 0 := by
    rw [List.countP_filter, List.countP_eq_zero]
    intro p _
    simp
  rw [hz]
  simp

theorem countP_assocSet_ne {α : Type} (m : List (String × α)) (k k2 : String) (v : α)
    (h : k2 ≠ k) :
    (((k, v) :: m.filter (fun p => p.1 != k)).countP (fun p => p.1 == k2))
      = m.countP (fun p => p.1 == k2) := by
  rw [List.countP_cons]
  have h1 : (((k, v) : String × α).1 == k2) = false := by simpa using Ne.symm h
  rw [h1, List.countP_filter]
  simp only [Bool.false_eq_true, if_false, Nat.add_zero]
  apply List.countP_congr
  intro p _
  constructor
  · intro hp
    exact (Bool.and_eq_true _ _).mp hp |>.1
  · intro hp
    have : p.1 = k2 := by simpa using hp
    simp [hp, this, h]

theorem countP_assocDelete_self {α : Type} (m : List (String × α)) (k : String) :
    ((m.filter (fun p => p.1 != k)).countP (fun p => p.1 == k)) = 0 := by
  rw [List.countP_filter, List.countP_eq_zero]
  intro p _
  simp

theorem countP_assocDelete_ne {α : Type} (m : List (String × α)) (k k2 : String)
    (h : k2 ≠ k) :
    ((m.filter (fun p => p.1 != k)).countP (fun p => p.1 == k2))
      = m.countP (fun p => p.1 == k2) := by
  rw [List.countP_filter]
  apply List.countP_congr
  intro p _
  constructor
  · intro hp
    exact (Bool.and_eq_true _ _).mp hp |>.1
  · intro hp
    have : p.1 = k2 := by simpa using hp
    simp [hp, this, h]

theorem eq_of_nodup_map_fst {l : List (Nat × String)}
    (hnd : (l.map Prod.fst).Nodup) :
    ∀ p ∈ l, ∀ q ∈ l, p.1 = q.1 → p = q := by
  induction l with
  | nil =>
    intro p hp
    cases hp
  | cons x t ih =>
    rw [List.map_cons, List.nodup_cons] at hnd
    intro p hp q hq he
    rcases List.mem_cons.mp hp with rfl | hp2
    · rcases List.mem_cons.mp hq with rfl | hq2
      · rfl
      · exact absurd (he ▸ List.mem_map_of_mem Prod.fst hq2) hnd.1
    · rcases List.mem_cons.mp hq with rfl | hq2
      · exact absurd (he ▸ List.mem_map_of_mem Prod.fst hp2) hnd.1
      · exact ih hnd.2 p hp2 q hq2 he

def WaInv (st : WaState) : Prop :=
  (∀ k, waKeyCount st k ≤ 1) ∧
  (∀ k, mapLookup st.sessions k = none → waLiveCount st k = 0) ∧
  (∀ k s, mapLookup st.sessions k = some s →
      waLiveCount st k = 1 ∧ s.handle < st.nextHandle ∧
      ∀ p ∈ st.owners, waIsLiveFor st k p = true → p.1 = s.handle) ∧
  (st.owners.map Prod.fst).Nodup ∧
  (∀ p ∈ st.owners, p.1 < st.nextHandle) ∧
  (∀ x ∈ st.destroyedHandles, x < st.nextHandle) ∧
  (∀ x ∈ st.failedInit, x < st.nextHandle)

theorem waInv_empty : WaInv waEmpty := by
  refine ⟨?_, ?_, ?_, ?_, ?_, ?_, ?_⟩
  · intro k
    simp [waKeyCount, waEmpty]
  · intro k _
    simp [waLiveCount, waEmpty]
  · intro k s h
    simp [waEmpty, mapLookup] at h
  · simp [waEmpty]
  · intro p hp
    simp [waEmpty] at hp
  · intro x hx
    simp [waEmpty] at hx
  · intro x hx
    simp [waEmpty] at hx

/-- Tearing down an existing entry (destroy its handle, remove the entry)
preserves the invariant and leaves the key without entry. -/
theorem waInv_teardown (st : WaState) (key : String) (s : WaSession)
    (hinv : WaInv st) (hlk : mapLookup st.sessions key = some s) :
    WaInv { st with destroyedHandles := s.handle :: st.destroyedHandles,
                    sessions := mapDelete st.sessions key } := by
  obtain ⟨hkc, hnone, hsome, hnd, hob, hdb, hfb⟩ := hinv
  obtain ⟨hl1, hh, hall⟩ := hsome key s hlk
  have hpos : 0 < waLiveCount st key := by omega
  obtain ⟨q, hqmem, hqlive⟩ := List.countP_pos_iff.mp hpos
  have hq1 : q.1 = s.handle := hall q hqmem hqlive
  have hq2 : q.2 = key := liveP_key hqlive
  have hOwnKey : ((s.handle, key) : Nat × String) ∈ st.owners := by
    have : q = (s.handle, key) := Prod.ext hq1 hq2
    rwa [this] at hqmem
  -- pointwise: no pair survives for key
  have hdeadKey : ∀ p ∈ st.owners,
      ¬ liveP (s.handle :: st.destroyedHandles) st.failedInit key p = true := by
    intro p hp hlive
    rw [liveP_iff] at hlive
    obtain ⟨hpk, hpd, hpf⟩ := hlive
    have hpds : p.1 ≠ s.handle := fun hc => hpd (by simp [hc])
    have hpd2 : p.1 ∉ st.destroyedHandles := fun hc => hpd (by simp [hc])
    have : waIsLiveFor st key p = true := by
      rw [waIsLiveFor, liveP_iff]
      exact ⟨hpk, hpd2, hpf⟩
    exact hpds (hall p hp this)
  -- pointwise: other keys unchanged
  have hsame : ∀ k, k ≠ key → ∀ p ∈ st.owners,
      (liveP (s.handle :: st.destroyedHandles) st.failedInit k p = true
        ↔ waIsLiveFor st k p = true) := by
    intro k hk p hp
    by_cases hpx : p.1 = s.handle
    · have : p = (s.handle, key) :=
        eq_of_nodup_map_fst hnd p hp (s.handle, key) hOwnKey (by simpa using hpx)
      rw [waIsLiveFor, liveP_iff, liveP_iff, this]
      constructor
      · intro h2
        exact absurd h2.1 (Ne.symm hk)
      · intro h2
        exact absurd h2.1 (Ne.symm hk)
    · rw [waIsLiveFor, liveP_iff, liveP_iff]
      constructor
      · intro h2
        refine ⟨h2.1, ?_, h2.2.2⟩
        intro hc
        exact h2.2.1 (by simp [hc])
      · intro h2
        refine ⟨h2.1, ?_, h2.2.2⟩
        intro hc
        rcases List.mem_cons.mp hc with hc1 | hc2
        · exact hpx hc1
        · exact h2.2.1 hc2
  refine ⟨?_, ?_, ?_, ?_, ?_, ?_, ?_⟩
  · intro k
    by_cases hk : k = key
    · subst hk
      have : waKeyCount { st with destroyedHandles := s.handle :: st.destroyedHandles,
                                  sessions := mapDelete st.sessions k } k
          = (st.sessions.filter (fun p => p.1 != k)).countP (fun p => p.1 == k) := rfl
      rw [this, countP_assocDelete_self]
      omega
    · have : waKeyCount { st with destroyedHandles := s.handle :: st.destroyedHandles,
                                  sessions := mapDelete st.sessions key } k
          = (st.sessions.filter (fun p => p.1 != key)).countP (fun p => p.1 == k) := rfl
      rw [this, countP_assocDelete_ne _ _ _ hk]
      exact hkc k
  · intro k hlk2
    by_cases hk : k = key
    · subst hk
      rw [waLiveCount, List.countP_eq_zero]
      exact hdeadKey
    · rw [mapLookup_delete_ne _ _ _ hk] at hlk2
      have h0 := hnone k hlk2
      rw [waLiveCount, List.countP_eq_zero]
      intro p hp hc
      have := (hsame k hk p hp).mp hc
      exact absurd this (List.countP_eq_zero.mp h0 p hp)
  · intro k s2 hlk2
    by_cases hk : k = key
    · subst hk
      rw [mapLookup_delete_self] at hlk2
      cases hlk2
    · rw [mapLookup_delete_ne _ _ _ hk] at hlk2
      obtain ⟨ha, hb, hc⟩ := hsome k s2 hlk2
      refine ⟨?_, hb, ?_⟩
      · rw [waLiveCount, ← ha, waLiveCount]
        apply List.countP_congr
        intro p hp
        exact hsame k hk p hp
      · intro p hp hlive
        exact hc p hp ((hsame k hk p hp).mp hlive)
  · exact hnd
  · exact hob
  · intro x hx
    rcases List.mem_cons.mp hx with rfl | hx2
    · exact hh
    · exact hdb x hx2
  · exact hfb

theorem filter_ne_idem {α : Type} (m : List (String × α)) (k : String) :
    (m.filter (fun p => p.1 != k)).filter (fun p => p.1 != k)
      = m.filter (fun p => p.1 != k) := by
  rw [List.filter_filter]
  apply List.filter_congr
  intro p _
  rw [Bool.and_self]

theorem mapSet_mapSet (m : List (String × WaSession)) (k : String) (v v2 : WaSession) :
    mapSet (mapSet m k v) k v2 = mapSet m k v2 := by
  unfold mapSet
  rw [List.filter_cons]
  have : (((k, v) : String × WaSession).1 != k) = false := by simp
  rw [this]
  simp only [Bool.false_eq_true, if_false]
  rw [filter_ne_idem]

theorem liveP_consF_iff {d f : List Nat} {h : Nat} {k : String} {p : Nat × String}
    (hph : p.1 ≠ h) : (liveP d (h :: f) k p = true) ↔ (liveP d f k p = true) := by
  rw [liveP_iff, liveP_iff]
  constructor
  · rintro ⟨h1, h2, h3⟩
    exact ⟨h1, h2, fun hc => h3 (by simp [hc])⟩
  · rintro ⟨h1, h2, h3⟩
    refine ⟨h1, h2, fun hc => ?_⟩
    rcases List.mem_cons.mp hc with hc1 | hc2
    · exact hph hc1
    · exact h3 hc2

/-- Creating a fresh entry for an absent key, with a fresh handle, preserves
the invariant. -/
theorem waInv_setFresh (st : WaState) (key : String) (v : WaSession)
    (hinv : WaInv st) (hlk : mapLookup st.sessions key = none)
    (hv : v.handle = st.nextHandle) :
    WaInv { st with nextHandle := st.nextHandle + 1,
                    owners := (st.nextHandle, key) :: st.owners,
                    sessions := mapSet st.sessions key v } := by
  obtain ⟨hkc, hnone, hsome, hnd, hob, hdb, hfb⟩ := hinv
  have hzero : st.owners.countP (liveP st.destroyedHandles st.failedInit key) = 0 :=
    hnone key hlk
  have hhd : st.nextHandle ∉ st.destroyedHandles := fun hc =>
    absurd (hdb _ hc) (by omega)
  have hhf : st.nextHandle ∉ st.failedInit := fun hc =>
    absurd (hfb _ hc) (by omega)
  have hnewlive : liveP st.destroyedHandles st.failedInit key
      (st.nextHandle, key) = true := by
    rw [liveP_iff]
    exact ⟨rfl, hhd, hhf⟩
  refine ⟨?_, ?_, ?_, ?_, ?_, ?_, ?_⟩
  · intro k
    show (mapSet st.sessions key v).countP (fun p => p.1 == k) ≤ 1
    by_cases hk : k = key
    · subst hk
      unfold mapSet
      rw [countP_assocSet_self]
    · unfold mapSet
      rw [countP_assocSet_ne _ _ _ _ hk]
      exact hkc k
  · intro k hlk2
    show ((st.nextHandle, key) :: st.owners).countP
      (liveP st.destroyedHandles st.failedInit k) = 0
    have hlk3 : mapLookup (mapSet st.sessions key v) k = none := hlk2
    by_cases hk : k = key
    · subst hk
      rw [mapLookup_set_self] at hlk3
      cases hlk3
    · rw [mapLookup_set_ne _ _ _ _ hk] at hlk3
      rw [List.countP_cons]
      have hnp : liveP st.destroyedHandles st.failedInit k (st.nextHandle, key) = false := by
        apply Bool.eq_false_iff.mpr
        intro hc
        exact hk (liveP_key hc).symm
      rw [hnp]
      simp only [Bool.false_eq_true, if_false, Nat.add_zero]
      exact hnone k hlk3
  · intro k s2 hlk2
    have hlk3 : mapLookup (mapSet st.sessions key v) k = some s2 := hlk2
    show ((st.nextHandle, key) :: st.owners).countP
        (liveP st.destroyedHandles st.failedInit k) = 1 ∧
      s2.handle < st.nextHandle + 1 ∧
      ∀ p ∈ (st.nextHandle, key) :: st.owners,
        liveP st.destroyedHandles st.failedInit k p = true → p.1 = s2.handle
    by_cases hk : k = key
    · subst hk
      rw [mapLookup_set_self] at hlk3
      injection hlk3 with hlk3
      subst hlk3
      refine ⟨?_, by rw [hv]; omega, ?_⟩
      · rw [List.countP_cons, hnewlive, hzero]
        simp
      · intro p hp hlive
        rcases List.mem_cons.mp hp with rfl | hp2
        · exact hv.symm
        · exact absurd hlive (by simpa using List.countP_eq_zero.mp hzero p hp2)
    · rw [mapLookup_set_ne _ _ _ _ hk] at hlk3
      obtain ⟨ha, hb, hc⟩ := hsome k s2 hlk3
      have hnp : liveP st.destroyedHandles st.failedInit k (st.nextHandle, key) = false := by
        apply Bool.eq_false_iff.mpr
        intro hcc
        exact hk (liveP_key hcc).symm
      refine ⟨?_, by omega, ?_⟩
      · rw [List.countP_cons, hnp]
        simpa using ha
      · intro p hp hlive
        rcases List.mem_cons.mp hp with rfl | hp2
        · exact absurd (liveP_key hlive).symm hk
        · exact hc p hp2 hlive
  · show (((st.nextHandle, key) :: st.owners).map Prod.fst).Nodup
    rw [List.map_cons, List.nodup_cons]
    constructor
    · intro hc
      obtain ⟨p, hp, hpe⟩ := List.mem_map.mp hc
      exact absurd (hpe ▸ hob p hp) (by omega)
    · exact hnd
  · intro p hp
    show p.1 < st.nextHandle + 1
    rcases List.mem_cons.mp hp with rfl | hp2
    · omega
    · have := hob p hp2
      omega
  · intro x hx
    show x < st.nextHandle + 1
    have := hdb x hx
    omega
  · intro x hx
    show x < st.nextHandle + 1
    have := hfb x hx
    omega

/-- A fresh session whose initialization fails is removed again with its
handle logged as failed; the invariant is preserved. -/
theorem waInv_initFresh (st : WaState) (key : String) (v : WaSession)
    (hinv : WaInv st) (hlk : mapLookup st.sessions key = none) :
    WaInv { st with nextHandle := st.nextHandle + 1,
                    owners := (st.nextHandle, key) :: st.owners,
                    sessions := mapDelete (mapSet st.sessions key v) key,
                    failedInit := st.nextHandle :: st.failedInit } := by
  obtain ⟨hkc, hnone, hsome, hnd, hob, hdb, hfb⟩ := hinv
  have hzero : st.owners.countP (liveP st.destroyedHandles st.failedInit key) = 0 :=
    hnone key hlk
  have hpointwise : ∀ k, ∀ p ∈ st.owners,
      (liveP st.destroyedHandles (st.nextHandle :: st.failedInit) k p = true
        ↔ liveP st.destroyedHandles st.failedInit k p = true) := by
    intro k p hp
    exact liveP_consF_iff (by have := hob p hp; omega)
  refine ⟨?_, ?_, ?_, ?_, ?_, ?_, ?_⟩
  · intro k
    show ((mapSet st.sessions key v).filter (fun p => p.1 != key)).countP
      (fun p => p.1 == k) ≤ 1
    by_cases hk : k = key
    · subst hk
      rw [countP_assocDelete_self]
      omega
    · rw [countP_assocDelete_ne _ _ _ hk]
      show (mapSet st.sessions key v).countP (fun p => p.1 == k) ≤ 1
      unfold mapSet
      rw [countP_assocSet_ne _ _ _ _ hk]
      exact hkc k
  · intro k hlk2
    show ((st.nextHandle, key) :: st.owners).countP
      (liveP st.destroyedHandles (st.nextHandle :: st.failedInit) k) = 0
    rw [List.countP_cons]
    have hnp : liveP st.destroyedHandles (st.nextHandle :: st.failedInit) k
        (st.nextHandle, key) = false := by
      apply Bool.eq_false_iff.mpr
      intro hc
      rw [liveP_iff] at hc
      exact hc.2.2 (by simp)
    rw [hnp]
    simp only [Bool.false_eq_true, if_false, Nat.add_zero]
    by_cases hk : k = key
    · subst hk
      rw [List.countP_eq_zero]
      intro p hp hc
      exact absurd ((hpointwise k p hp).mp hc)
        (by simpa using List.countP_eq_zero.mp hzero p hp)
    · have hlk3 : mapLookup (mapDelete (mapSet st.sessions key v) key) k = none := hlk2
      rw [mapLookup_delete_ne _ _ _ hk, mapLookup_set_ne _ _ _ _ hk] at hlk3
      have h0 := hnone k hlk3
      rw [List.countP_eq_zero]
      intro p hp hc
      exact absurd ((hpointwise k p hp).mp hc)
        (by simpa using List.countP_eq_zero.mp h0 p hp)
  · intro k s2 hlk2
    have hlk3 : mapLookup (mapDelete (mapSet st.sessions key v) key) k = some s2 := hlk2
    show ((st.nextHandle, key) :: st.owners).countP
        (liveP st.destroyedHandles (st.nextHandle :: st.failedInit) k) = 1 ∧
      s2.handle < st.nextHandle + 1 ∧
      ∀ p ∈ (st.nextHandle, key) :: st.owners,
        liveP st.destroyedHandles (st.nextHandle :: st.failedInit) k p = true →
          p.1 = s2.handle
    by_cases hk : k = key
    · subst hk
      rw [mapLookup_delete_self] at hlk3
      cases hlk3
    · rw [mapLookup_delete_ne _ _ _ hk, mapLookup_set_ne _ _ _ _ hk] at hlk3
      obtain ⟨ha, hb, hc⟩ := hsome k s2 hlk3
      have hnp : liveP st.destroyedHandles (st.nextHandle :: st.failedInit) k
          (st.nextHandle, key) = false := by
        apply Bool.eq_false_iff.mpr
        intro hcc
        exact hk (liveP_key hcc).symm
      refine ⟨?_, by omega, ?_⟩
      · rw [List.countP_cons, hnp]
        simp only [Bool.false_eq_true, if_false, Nat.add_zero]
        rw [List.countP_congr (fun p hp => hpointwise k p hp)]
        exact ha
      · intro p hp hlive
        rcases List.mem_cons.mp hp with rfl | hp2
        · exact absurd (liveP_key hlive).symm hk
        · exact hc p hp2 ((hpointwise k p hp2).mp hlive)
  · show (((st.nextHandle, key) :: st.owners).map Prod.fst).Nodup
    rw [List.map_cons, List.nodup_cons]
    constructor
    · intro hcm
      obtain ⟨p, hp, hpe⟩ := List.mem_map.mp hcm
      exact absurd (hpe ▸ hob p hp) (by omega)
    · exact hnd
  · intro p hp
    show p.1 < st.nextHandle + 1
    rcases List.mem_cons.mp hp with rfl | hp2
    · omega
    · have := hob p hp2
      omega
  · intro x hx
    show x < st.nextHandle + 1
    have := hdb x hx
    omega
  · intro x hx
    show x < st.nextHandle + 1
    rcases List.mem_cons.mp hx with rfl | hx2
    · omega
    · have := hfb x hx2
      omega

/-- waFresh preserves the invariant from any state without an entry. -/
theorem waFresh_inv (st : WaState) (key u : String) (a : Nat) (b : WaInit)
    (hinv : WaInv st) (hlk : mapLookup st.sessions key = none) :
    WaInv (waFresh st key u a b).1 := by
  cases b with
  | emitsQr q =>
    show WaInv _
    dsimp only [waFresh]
    rw [mapSet_mapSet]
    exact waInv_setFresh st key _ hinv hlk rfl
  | authFails => exact waInv_setFresh st key _ hinv hlk rfl
  | timesOut => exact waInv_setFresh st key _ hinv hlk rfl
  | initFails => exact waInv_initFresh st key _ hinv hlk

/-- Any open() call preserves the registry invariant. -/
theorem waInv_open (st : WaState) (u : String) (a : Nat) (b : WaInit)
    (hinv : WaInv st) : WaInv (createWhatsAppSession st u a b).1 := by
  cases hlk : mapLookup st.sessions (getSessionKey u a) with
  | none =>
    simp only [createWhatsAppSession, hlk]
    exact waFresh_inv st _ u a b hinv hlk
  | some s =>
    by_cases hs : s.status = .ready
    · simp only [createWhatsAppSession, hlk, if_pos hs]
      exact hinv
    · simp only [createWhatsAppSession, hlk, if_neg hs]
      have hA := waInv_teardown st _ s hinv hlk
      exact waFresh_inv _ _ u a b hA (mapLookup_delete_self _ _)

theorem waFresh_destroyed (st : WaState) (key u : String) (a : Nat) (b : WaInit) :
    (waFresh st key u a b).1.destroyedHandles = st.destroyedHandles := by
  cases b <;> rfl

theorem waFresh_entry_handle (st : WaState) (key u : String) (a : Nat) (b : WaInit) :
    ∀ s2, mapLookup (waFresh st key u a b).1.sessions key = some s2 →
      s2.handle = st.nextHandle := by
  cases b with
  | emitsQr q =>
    intro s2 h
    dsimp only [waFresh] at h
    rw [mapSet_mapSet, mapLookup_set_self] at h
    injection h with h
    rw [← h]
  | authFails =>
    intro s2 h
    dsimp only [waFresh] at h
    rw [mapLookup_set_self] at h
    injection h with h
    rw [← h]
  | timesOut =>
    intro s2 h
    dsimp only [waFresh] at h
    rw [mapLookup_set_self] at h
    injection h with h
    rw [← h]
  | initFails =>
    intro s2 h
    dsimp only [waFresh] at h
    rw [mapLookup_delete_self] at h
    cases h

/-- Two successive WhatsApp opens for one key: at most one entry, at most one
live handle; a ready entry makes the second open a no-op success; any other
entry is destroyed and replaced by a fresh handle. -/
theorem wa_double_open (st : WaState) (u : String) (a : Nat) (b1 b2 : WaInit)
    (hinv : WaInv st) :
    waKeyCount (createWhatsAppSession (createWhatsAppSession st u a b1).1 u a b2).1
        (getSessionKey u a) ≤ 1 ∧
    waLiveCount (createWhatsAppSession (createWhatsAppSession st u a b1).1 u a b2).1
        (getSessionKey u a) ≤ 1 ∧
    (∀ s, mapLookup (createWhatsAppSession st u a b1).1.sessions (getSessionKey u a)
        = some s →
       s.status = .ready →
       createWhatsAppSession (createWhatsAppSession st u a b1).1 u a b2
         = ((createWhatsAppSession st u a b1).1,
            { success := true, qrCode := none, error := none })) ∧
    (∀ s, mapLookup (createWhatsAppSession st u a b1).1.sessions (getSessionKey u a)
        = some s →
       s.status ≠ .ready →
       s.handle ∈ (createWhatsAppSession (createWhatsAppSession st u a b1).1
           u a b2).1.destroyedHandles ∧
       ∀ s2, mapLookup (createWhatsAppSession (createWhatsAppSession st u a b1).1
           u a b2).1.sessions (getSessionKey u a) = some s2 →
         s2.handle ≠ s.handle) := by
  have hinv1 := waInv_open st u a b1 hinv
  generalize hg : (createWhatsAppSession st u a b1).1 = st1 at hinv1 ⊢
  have hinv2 := waInv_open st1 u a b2 hinv1
  refine ⟨hinv2.1 _, ?_, ?_, ?_⟩
  · cases hl : mapLookup (createWhatsAppSession st1 u a b2).1.sessions (getSessionKey u a) with
    | none =>
      rw [hinv2.2.1 _ hl]
      exact Nat.zero_le 1
    | some s3 =>
      rw [(hinv2.2.2.1 _ s3 hl).1]
  · intro s hs hready
    simp [createWhatsAppSession, hs, hready]
  · intro s hs hnready
    have hgoal2 : createWhatsAppSession st1 u a b2
        = waFresh { st1 with
            destroyedHandles := s.handle :: st1.destroyedHandles,
            sessions := mapDelete st1.sessions (getSessionKey u a) }
          (getSessionKey u a) u a b2 := by
      simp only [createWhatsAppSession, hs, if_neg hnready]
    constructor
    · rw [hgoal2, waFresh_destroyed]
      exact List.mem_cons_self _ _
    · intro s2 hl2
      rw [hgoal2] at hl2
      have h2 := waFresh_entry_handle _ _ u a b2 s2 hl2
      have h3 := (hinv1.2.2.1 _ s hs).2.1
      simp only at h2
      omega

theorem igLive_iff (st : IgState) (k : String) (p : Nat × String) :
    igIsLiveFor st k p = true ↔
      p.2 = k ∧ (igEntryClient st k = some p.1 ∨ p.1 ∈ st.clientTimers) := by
  simp [igIsLiveFor]

def IgInv (st : IgState) : Prop :=
  (∀ k, igKeyCount st k ≤ 1) ∧
  (∀ k, igLookup st.sessions k = none → igLiveCount st k = 0) ∧
  (∀ k s, igLookup st.sessions k = some s →
      igLiveCount st k = 1 ∧ s.ig < st.nextClient ∧
      ∀ p ∈ st.owners, igIsLiveFor st k p = true → p.1 = s.ig) ∧
  (st.owners.map Prod.fst).Nodup ∧
  (∀ p ∈ st.owners, p.1 < st.nextClient) ∧
  (∀ c ∈ st.clientTimers, c < st.nextClient)

theorem igInv_empty : IgInv igEmpty := by
  refine ⟨?_, ?_, ?_, ?_, ?_, ?_⟩
  · intro k
    simp [igKeyCount, igEmpty]
  · intro k _
    simp [igLiveCount, igEmpty]
  · intro k s h
    simp [igEmpty, igLookup] at h
  · simp [igEmpty]
  · intro p hp
    simp [igEmpty] at hp
  · intro c hc
    simp [igEmpty] at hc

theorem igSet_igSet (m : List (String × IgSession)) (k : String) (v v2 : IgSession) :
    igSet (igSet m k v) k v2 = igSet m k v2 := by
  unfold igSet
  rw [List.filter_cons]
  have : (((k, v) : String × IgSession).1 != k) = false := by simp
  rw [this]
  simp only [Bool.false_eq_true, if_false]
  rw [filter_ne_idem]

/-- Tearing down an Instagram entry (stop its timer, remove the entry)
preserves the invariant. -/
theorem igInv_teardown (st : IgState) (key : String) (s : IgSession)
    (hinv : IgInv st) (hlk : igLookup st.sessions key = some s) :
    IgInv (igStopTimer { st with sessions := igDelete st.sessions key } s.ig) := by
  obtain ⟨hkc, hnone, hsome, hnd, hob, htb⟩ := hinv
  obtain ⟨hl1, hc1, hall⟩ := hsome key s hlk
  have hpos : 0 < igLiveCount st key := by omega
  obtain ⟨q, hqmem, hqlive⟩ := List.countP_pos_iff.mp hpos
  have hq1 : q.1 = s.ig := hall q hqmem hqlive
  have hq2 : q.2 = key := ((igLive_iff st key q).mp hqlive).1
  have hOwnKey : ((s.ig, key) : Nat × String) ∈ st.owners := by
    have : q = (s.ig, key) := Prod.ext hq1 hq2
    rwa [this] at hqmem
  have hmemT : ∀ x : Nat, (x ∈ st.clientTimers.filter (fun y => y != s.ig))
      ↔ (x ∈ st.clientTimers ∧ x ≠ s.ig) := by
    intro x
    rw [List.mem_filter]
    constructor
    · rintro ⟨h1, h2⟩
      exact ⟨h1, by simpa using h2⟩
    · rintro ⟨h1, h2⟩
      exact ⟨h1, by simpa using h2⟩
  have hdead : ∀ p ∈ st.owners,
      ¬ igIsLiveFor (igStopTimer { st with sessions := igDelete st.sessions key } s.ig)
        key p = true := by
    intro p hp hlive
    rw [igLive_iff] at hlive
    obtain ⟨hpk, hdis⟩ := hlive
    have hent : igEntryClient
        (igStopTimer { st with sessions := igDelete st.sessions key } s.ig) key = none := by
      show (igLookup (igDelete st.sessions key) key).map (fun s => s.ig) = none
      rw [igLookup_delete_self]
      rfl
    rcases hdis with hd1 | hd2
    · rw [hent] at hd1
      cases hd1
    · have := (hmemT p.1).mp hd2
      have hlive2 : igIsLiveFor st key p = true := by
        rw [igLive_iff]
        exact ⟨hpk, Or.inr this.1⟩
      exact this.2 (hall p hp hlive2)
  have hsame : ∀ k, k ≠ key → ∀ p ∈ st.owners,
      (igIsLiveFor (igStopTimer { st with sessions := igDelete st.sessions key } s.ig) k p
        = true ↔ igIsLiveFor st k p = true) := by
    intro k hk p hp
    have hent : igEntryClient
        (igStopTimer { st with sessions := igDelete st.sessions key } s.ig) k
        = igEntryClient st k := by
      show (igLookup (igDelete st.sessions key) k).map (fun s => s.ig)
        = (igLookup st.sessions k).map (fun s => s.ig)
      rw [igLookup_delete_ne _ _ _ hk]
    by_cases hpx : p.1 = s.ig
    · have hpeq : p = (s.ig, key) :=
        eq_of_nodup_map_fst hnd p hp (s.ig, key) hOwnKey (by simpa using hpx)
      rw [igLive_iff, igLive_iff, hpeq]
      constructor
      · intro h2
        exact absurd h2.1 (Ne.symm hk)
      · intro h2
        exact absurd h2.1 (Ne.symm hk)
    · rw [igLive_iff, igLive_iff, hent]
      constructor
      · rintro ⟨h1, h2 | h3⟩
        · exact ⟨h1, Or.inl h2⟩
        · exact ⟨h1, Or.inr ((hmemT p.1).mp h3).1⟩
      · rintro ⟨h1, h2 | h3⟩
        · exact ⟨h1, Or.inl h2⟩
        · exact ⟨h1, Or.inr ((hmemT p.1).mpr ⟨h3, hpx⟩)⟩
  refine ⟨?_, ?_, ?_, ?_, ?_, ?_⟩
  · intro k
    show (st.sessions.filter (fun p => p.1 != key)).countP (fun p => p.1 == k) ≤ 1
    by_cases hk : k = key
    · subst hk
      rw [countP_assocDelete_self]
      omega
    · rw [countP_assocDelete_ne _ _ _ hk]
      exact hkc k
  · intro k hlk2
    by_cases hk : k = key
    · subst hk
      rw [igLiveCount, List.countP_eq_zero]
      exact hdead
    · have hlk3 : igLookup (igDelete st.sessions key) k = none := hlk2
      rw [igLookup_delete_ne _ _ _ hk] at hlk3
      have h0 := hnone k hlk3
      rw [igLiveCount, List.countP_eq_zero]
      intro p hp hc
      have := (hsame k hk p hp).mp hc
      exact absurd this (List.countP_eq_zero.mp h0 p hp)
  · intro k s2 hlk2
    by_cases hk : k = key
    · subst hk
      have hlk3 : igLookup (igDelete st.sessions k) k = some s2 := hlk2
      rw [igLookup_delete_self] at hlk3
      cases hlk3
    · have hlk3 : igLookup (igDelete st.sessions key) k = some s2 := hlk2
      rw [igLookup_delete_ne _ _ _ hk] at hlk3
      obtain ⟨ha, hb, hc⟩ := hsome k s2 hlk3
      refine ⟨?_, hb, ?_⟩
      · rw [igLiveCount, ← ha, igLiveCount]
        apply List.countP_congr
        intro p hp
        exact hsame k hk p hp
      · intro p hp hlive
        exact hc p hp ((hsame k hk p hp).mp hlive)
  · exact hnd
  · exact hob
  · intro c hc
    have := (hmemT c).mp hc
    exact htb c this.1

/-- Creating a fresh Instagram entry for an absent key, with a fresh client
id referenced by the new entry (and possibly a new polling timer), preserves
the invariant. -/
theorem igInv_setFresh (st : IgState) (key : String) (v : IgSession) (ts : List Nat)
    (hinv : IgInv st) (hlk : igLookup st.sessions key = none)
    (hv : v.ig = st.nextClient)
    (hts : ts = st.nextClient :: st.clientTimers ∨ ts = st.clientTimers) :
    IgInv { st with nextClient := st.nextClient + 1,
                    owners := (st.nextClient, key) :: st.owners,
                    sessions := igSet st.sessions key v,
                    clientTimers := ts } := by
  obtain ⟨hkc, hnone, hsome, hnd, hob, htb⟩ := hinv
  have hzero : igLiveCount st key = 0 := hnone key hlk
  have hmem_ts : ∀ x : Nat, x ≠ st.nextClient → (x ∈ ts ↔ x ∈ st.clientTimers) := by
    intro x hx
    rcases hts with rfl | rfl
    · rw [List.mem_cons]
      constructor
      · rintro (rfl | h2)
        · exact absurd rfl hx
        · exact h2
      · exact Or.inr
    · exact Iff.rfl
  have hbound_ts : ∀ x ∈ ts, x < st.nextClient + 1 := by
    intro x hx
    rcases hts with rfl | rfl
    · rcases List.mem_cons.mp hx with rfl | h2
      · omega
      · have := htb x h2
        omega
    · have := htb x hx
      omega
  have hentV : ∀ k, igLookup (igSet st.sessions key v) k
      = if k = key then some v else igLookup st.sessions k := by
    intro k
    by_cases hk : k = key
    · subst hk
      rw [if_pos rfl, igLookup_set_self]
    · rw [if_neg hk, igLookup_set_ne _ _ _ _ hk]
  have hpoint : ∀ k, k ≠ key → ∀ p ∈ st.owners,
      (igIsLiveFor { st with nextClient := st.nextClient + 1, owners := (st.nextClient, key) :: st.owners, sessions := igSet st.sessions key v, clientTimers := ts } k p = true ↔ igIsLiveFor st k p = true) := by
    intro k hk p hp
    rw [igLive_iff, igLive_iff]
    have hent : igEntryClient { st with nextClient := st.nextClient + 1, owners := (st.nextClient, key) :: st.owners, sessions := igSet st.sessions key v, clientTimers := ts } k = igEntryClient st k := by
      show (igLookup (igSet st.sessions key v) k).map (fun s => s.ig)
        = (igLookup st.sessions k).map (fun s => s.ig)
      rw [hentV k, if_neg hk]
    rw [hent]
    have hpx : p.1 ≠ st.nextClient := by
      have := hob p hp
      omega
    constructor
    · rintro ⟨h1, h2 | h3⟩
      · exact ⟨h1, Or.inl h2⟩
      · exact ⟨h1, Or.inr ((hmem_ts p.1 hpx).mp h3)⟩
    · rintro ⟨h1, h2 | h3⟩
      · exact ⟨h1, Or.inl h2⟩
      · exact ⟨h1, Or.inr ((hmem_ts p.1 hpx).mpr h3)⟩
  have hnewlive : igIsLiveFor { st with nextClient := st.nextClient + 1, owners := (st.nextClient, key) :: st.owners, sessions := igSet st.sessions key v, clientTimers := ts } key (st.nextClient, key) = true := by
    rw [igLive_iff]
    refine ⟨rfl, Or.inl ?_⟩
    show (igLookup (igSet st.sessions key v) key).map (fun s => s.ig) = some st.nextClient
    rw [igLookup_set_self]
    simp [hv]
  have holddead : ∀ p ∈ st.owners,
      ¬ igIsLiveFor { st with nextClient := st.nextClient + 1, owners := (st.nextClient, key) :: st.owners, sessions := igSet st.sessions key v, clientTimers := ts } key p = true := by
    intro p hp hc
    rw [igLive_iff] at hc
    obtain ⟨h1, h2 | h3⟩ := hc
    · have hpx : p.1 ≠ st.nextClient := by
        have := hob p hp
        omega
      rw [show igEntryClient { st with nextClient := st.nextClient + 1, owners := (st.nextClient, key) :: st.owners, sessions := igSet st.sessions key v, clientTimers := ts } key = some v.ig from by
        show (igLookup (igSet st.sessions key v) key).map (fun s => s.ig) = some v.ig
        rw [igLookup_set_self]
        rfl] at h2
      injection h2 with h2
      rw [hv] at h2
      exact hpx h2.symm
    · have hpx : p.1 ≠ st.nextClient := by
        have := hob p hp
        omega
      have h4 : p.1 ∈ st.clientTimers := (hmem_ts p.1 hpx).mp h3
      have hlive2 : igIsLiveFor st key p = true := by
        rw [igLive_iff]
        exact ⟨h1, Or.inr h4⟩
      exact absurd hlive2 (List.countP_eq_zero.mp hzero p hp)
  refine ⟨?_, ?_, ?_, ?_, ?_, ?_⟩
  · intro k
    show (igSet st.sessions key v).countP (fun p => p.1 == k) ≤ 1
    by_cases hk : k = key
    · subst hk
      unfold igSet
      rw [countP_assocSet_self]
    · unfold igSet
      rw [countP_assocSet_ne _ _ _ _ hk]
      exact hkc k
  · intro k hlk2
    have hlk3 : igLookup (igSet st.sessions key v) k = none := hlk2
    rw [hentV k] at hlk3
    by_cases hk : k = key
    · rw [if_pos hk] at hlk3
      cases hlk3
    · rw [if_neg hk] at hlk3
      have h0 := hnone k hlk3
      rw [igLiveCount, List.countP_cons]
      have hnp : igIsLiveFor { st with nextClient := st.nextClient + 1, owners := (st.nextClient, key) :: st.owners, sessions := igSet st.sessions key v, clientTimers := ts } k (st.nextClient, key) = false := by
        apply Bool.eq_false_iff.mpr
        intro hc
        exact hk ((igLive_iff _ _ _).mp hc).1.symm
      rw [hnp]
      simp only [Bool.false_eq_true, if_false, Nat.add_zero]
      rw [List.countP_eq_zero]
      intro p hp hc
      exact absurd ((hpoint k hk p hp).mp hc) (List.countP_eq_zero.mp h0 p hp)
  · intro k s2 hlk2
    have hlk3 : igLookup (igSet st.sessions key v) k = some s2 := hlk2
    rw [hentV k] at hlk3
    by_cases hk : k = key
    · subst hk
      rw [if_pos rfl] at hlk3
      injection hlk3 with hlk3
      subst hlk3
      refine ⟨?_, by show v.ig < st.nextClient + 1; rw [hv]; omega, ?_⟩
      · rw [igLiveCount, List.countP_cons, hnewlive, List.countP_eq_zero.mpr holddead]
        simp
      · intro p hp hlive
        rcases List.mem_cons.mp hp with rfl | hp2
        · exact hv.symm
        · exact absurd hlive (holddead p hp2)
    · rw [if_neg hk] at hlk3
      obtain ⟨ha, hb, hc⟩ := hsome k s2 hlk3
      have hnp : igIsLiveFor { st with nextClient := st.nextClient + 1, owners := (st.nextClient, key) :: st.owners, sessions := igSet st.sessions key v, clientTimers := ts } k (st.nextClient, key) = false := by
        apply Bool.eq_false_iff.mpr
        intro hcc
        exact hk ((igLive_iff _ _ _).mp hcc).1.symm
      refine ⟨?_, by show s2.ig < st.nextClient + 1; omega, ?_⟩
      · rw [igLiveCount, List.countP_cons, hnp]
        simp only [Bool.false_eq_true, if_false, Nat.add_zero]
        rw [List.countP_congr (fun p hp => hpoint k hk p hp)]
        exact ha
      · intro p hp hlive
        rcases List.mem_cons.mp hp with rfl | hp2
        · exact absurd ((igLive_iff _ _ _).mp hlive).1 (Ne.symm hk)
        · exact hc p hp2 ((hpoint k hk p hp2).mp hlive)
  · show (((st.nextClient, key) :: st.owners).map Prod.fst).Nodup
    rw [List.map_cons, List.nodup_cons]
    constructor
    · intro hcm
      obtain ⟨p, hp, hpe⟩ := List.mem_map.mp hcm
      exact absurd (hpe ▸ hob p hp) (by omega)
    · exact hnd
  · intro p hp
    show p.1 < st.nextClient + 1
    rcases List.mem_cons.mp hp with rfl | hp2
    · omega
    · have := hob p hp2
      omega
  · exact hbound_ts

theorem igFresh_inv (st : IgState) (key u : String) (a : Nat) (un : String) (now : Nat)
    (b : IgLogin) (hinv : IgInv st) (hlk : igLookup st.sessions key = none) :
    IgInv (connectInstagram.igConnectFresh st key u a un now b).1 := by
  cases b <;>
    first
      | (show IgInv _
         dsimp only [connectInstagram.igConnectFresh]
         rw [igSet_igSet]
         exact igInv_setFresh st key _ _ hinv hlk rfl (Or.inl rfl))
      | (show IgInv _
         dsimp only [connectInstagram.igConnectFresh]
         rw [igSet_igSet]
         exact igInv_setFresh st key _ _ hinv hlk rfl (Or.inr rfl))

/-- Any Instagram open() call preserves the registry invariant. -/
theorem igInv_connect (st : IgState) (u : String) (a : Nat) (un : String) (now : Nat)
    (b : IgLogin) (hinv : IgInv st) : IgInv (connectInstagram st u a un now b).1 := by
  cases hlk : igLookup st.sessions (igSessionKey u a) with
  | none =>
    simp only [connectInstagram, hlk]
    exact igFresh_inv st _ u a un now b hinv hlk
  | some s =>
    by_cases hs : s.status = .connected
    · simp only [connectInstagram, hlk, if_pos hs]
      exact hinv
    · simp only [connectInstagram, hlk, if_neg hs]
      exact igFresh_inv _ _ u a un now b (igInv_teardown st _ s hinv hlk)
        (igLookup_delete_self _ _)

theorem igConnectFresh_timers (st : IgState) (key u : String) (a : Nat) (un : String)
    (now : Nat) (b : IgLogin) :
    (connectInstagram.igConnectFresh st key u a un now b).1.clientTimers
        = st.nextClient :: st.clientTimers ∨
    (connectInstagram.igConnectFresh st key u a un now b).1.clientTimers
        = st.clientTimers := by
  cases b <;> first | exact Or.inl rfl | exact Or.inr rfl

theorem igConnectFresh_entry (st : IgState) (key u : String) (a : Nat) (un : String)
    (now : Nat) (b : IgLogin) :
    ∀ s2, igLookup (connectInstagram.igConnectFresh st key u a un now b).1.sessions key
        = some s2 → s2.ig = st.nextClient := by
  cases b <;>
    (intro s2 h
     dsimp only [connectInstagram.igConnectFresh] at h
     rw [igSet_igSet, igLookup_set_self] at h
     injection h with h
     rw [← h])

/-- Two successive Instagram opens for one key: at most one entry, at most
one live client; a connected entry makes the second open a no-op success;
any other entry has its timer stopped and is replaced by a fresh client. -/
theorem ig_double_open (st : IgState) (u : String) (a : Nat) (un un2 : String)
    (n1 n2 : Nat) (b1 b2 : IgLogin) (hinv : IgInv st) :
    igKeyCount (connectInstagram (connectInstagram st u a un n1 b1).1 u a un2 n2 b2).1
        (igSessionKey u a) ≤ 1 ∧
    igLiveCount (connectInstagram (connectInstagram st u a un n1 b1).1 u a un2 n2 b2).1
        (igSessionKey u a) ≤ 1 ∧
    (∀ s, igLookup (connectInstagram st u a un n1 b1).1.sessions (igSessionKey u a)
        = some s →
       s.status = .connected →
       connectInstagram (connectInstagram st u a un n1 b1).1 u a un2 n2 b2
         = ((connectInstagram st u a un n1 b1).1,
            { success := true, username := some s.username, error := none })) ∧
    (∀ s, igLookup (connectInstagram st u a un n1 b1).1.sessions (igSessionKey u a)
        = some s →
       s.status ≠ .connected →
       s.ig ∉ (connectInstagram (connectInstagram st u a un n1 b1).1
           u a un2 n2 b2).1.clientTimers ∧
       ∀ s2, igLookup (connectInstagram (connectInstagram st u a un n1 b1).1
           u a un2 n2 b2).1.sessions (igSessionKey u a) = some s2 →
         s2.ig ≠ s.ig) := by
  have hinv1 := igInv_connect st u a un n1 b1 hinv
  generalize hg : (connectInstagram st u a un n1 b1).1 = st1 at hinv1 ⊢
  have hinv2 := igInv_connect st1 u a un2 n2 b2 hinv1
  refine ⟨hinv2.1 _, ?_, ?_, ?_⟩
  · cases hl : igLookup (connectInstagram st1 u a un2 n2 b2).1.sessions (igSessionKey u a) with
    | none =>
      rw [hinv2.2.1 _ hl]
      exact Nat.zero_le 1
    | some s3 =>
      rw [(hinv2.2.2.1 _ s3 hl).1]
  · intro s hs hconn
    simp [connectInstagram, hs, hconn]
  · intro s hs hnconn
    have hsig : s.ig < st1.nextClient := (hinv1.2.2.1 _ s hs).2.1
    have hgoal2 : connectInstagram st1 u a un2 n2 b2
        = connectInstagram.igConnectFresh
            (igStopTimer { st1 with sessions := igDelete st1.sessions (igSessionKey u a) } s.ig)
            (igSessionKey u a) u a un2 n2 b2 := by
      simp only [connectInstagram, hs, if_neg hnconn]
    constructor
    · rw [hgoal2]
      intro hmem
      rcases igConnectFresh_timers
          (igStopTimer { st1 with sessions := igDelete st1.sessions (igSessionKey u a) } s.ig)
          (igSessionKey u a) u a un2 n2 b2 with ht | ht
      · rw [ht] at hmem
        rcases List.mem_cons.mp hmem with he | hmem2
        · have : (igStopTimer { st1 with
              sessions := igDelete st1.sessions (igSessionKey u a) } s.ig).nextClient
              = st1.nextClient := rfl
          rw [this] at he
          omega
        · have := (List.mem_filter.mp hmem2).2
          simp at this
      · rw [ht] at hmem
        have := (List.mem_filter.mp hmem).2
        simp at this
    · intro s2 hl2
      rw [hgoal2] at hl2
      have h2 := igConnectFresh_entry _ _ u a un2 n2 b2 s2 hl2
      have h3 : (igStopTimer { st1 with
          sessions := igDelete st1.sessions (igSessionKey u a) } s.ig).nextClient
          = st1.nextClient := rfl
      rw [h3] at h2
      omega

/-- C1: for both channel kinds, calling open() twice in succession for one
key (from any state satisfying the registry invariant) leaves at most one
registry entry and at most one live external client handle for that key;
when the entry seen by the second open() is ready/connected it returns
success immediately leaving the state untouched, and in every other state
the existing handle is destroyed (WhatsApp) or its timer stopped and the
client dropped (Instagram) and the entry replaced by a fresh handle. -/
theorem claim_c1 :
    (∀ (st : WaState) (u : String) (a : Nat) (b1 b2 : WaInit), WaInv st →
       waKeyCount (createWhatsAppSession (createWhatsAppSession st u a b1).1 u a b2).1
           (getSessionKey u a) ≤ 1 ∧
       waLiveCount (createWhatsAppSession (createWhatsAppSession st u a b1).1 u a b2).1
           (getSessionKey u a) ≤ 1 ∧
       (∀ s, mapLookup (createWhatsAppSession st u a b1).1.sessions (getSessionKey u a)
           = some s →
          s.status = .ready →
          createWhatsAppSession (createWhatsAppSession st u a b1).1 u a b2
            = ((createWhatsAppSession st u a b1).1,
               { success := true, qrCode := none, error := none })) ∧
       (∀ s, mapLookup (createWhatsAppSession st u a b1).1.sessions (getSessionKey u a)
           = some s →
          s.status ≠ .ready →
          s.handle ∈ (createWhatsAppSession (createWhatsAppSession st u a b1).1
              u a b2).1.destroyedHandles ∧
          ∀ s2, mapLookup (createWhatsAppSession (createWhatsAppSession st u a b1).1
              u a b2).1.sessions (getSessionKey u a) = some s2 →
            s2.handle ≠ s.handle)) ∧
    (∀ (st : IgState) (u : String) (a : Nat) (un un2 : String) (n1 n2 : Nat)
       (b1 b2 : IgLogin), IgInv st →
       igKeyCount (connectInstagram (connectInstagram st u a un n1 b1).1 u a un2 n2 b2).1
           (igSessionKey u a) ≤ 1 ∧
       igLiveCount (connectInstagram (connectInstagram st u a un n1 b1).1 u a un2 n2 b2).1
           (igSessionKey u a) ≤ 1 ∧
       (∀ s, igLookup (connectInstagram st u a un n1 b1).1.sessions (igSessionKey u a)
           = some s →
          s.status = .connected →
          connectInstagram (connectInstagram st u a un n1 b1).1 u a un2 n2 b2
            = ((connectInstagram st u a un n1 b1).1,
               { success := true, username := some s.username, error := none })) ∧
       (∀ s, igLookup (connectInstagram st u a un n1 b1).1.sessions (igSessionKey u a)
           = some s →
          s.status ≠ .connected →
          s.ig ∉ (connectInstagram (connectInstagram st u a un n1 b1).1
              u a un2 n2 b2).1.clientTimers ∧
          ∀ s2, igLookup (connectInstagram (connectInstagram st u a un n1 b1).1
              u a un2 n2 b2).1.sessions (igSessionKey u a) = some s2 →
            s2.ig ≠ s.ig)) :=
  ⟨wa_double_open, ig_double_open⟩

/-- Witness for C1: double open from the empty registries, with the client
emitting a QR and the Instagram login succeeding. -/
theorem claim_c1_witness :
    waKeyCount (createWhatsAppSession (createWhatsAppSession waEmpty "u" 1
        (.emitsQr "QR1")).1 "u" 1 (.emitsQr "QR2")).1 (getSessionKey "u" 1) ≤ 1 ∧
    waLiveCount (createWhatsAppSession (createWhatsAppSession waEmpty "u" 1
        (.emitsQr "QR1")).1 "u" 1 (.emitsQr "QR2")).1 (getSessionKey "u" 1) ≤ 1 ∧
    igKeyCount (connectInstagram (connectInstagram igEmpty "u" 1 "acc" 0 (.ok 7)).1
        "u" 1 "acc" 1 (.ok 7)).1 (igSessionKey "u" 1) ≤ 1 ∧
    igLiveCount (connectInstagram (connectInstagram igEmpty "u" 1 "acc" 0 (.ok 7)).1
        "u" 1 "acc" 1 (.ok 7)).1 (igSessionKey "u" 1) ≤ 1 :=
  ⟨(claim_c1.1 waEmpty "u" 1 (.emitsQr "QR1") (.emitsQr "QR2") waInv_empty).1,
   (claim_c1.1 waEmpty "u" 1 (.emitsQr "QR1") (.emitsQr "QR2") waInv_empty).2.1,
   (claim_c1.2 igEmpty "u" 1 "acc" "acc" 0 1 (.ok 7) (.ok 7) igInv_empty).1,
   (claim_c1.2 igEmpty "u" 1 "acc" "acc" 0 1 (.ok 7) (.ok 7) igInv_empty).2.1⟩
